import Mathlib

/-!
# Verification of the options-extractor pipeline

Shallow embedding of `src/scripts/extract_options.py` (an options-quote
filtering and selection script built on pandas) and proofs about it.

Modelling conventions:
* A cell value is `Val`: a finite numeric value (modelled as `ℚ`, treating
  float arithmetic on the values the claims touch as exact), a signed
  infinity (produced by float division by zero), the missing marker
  (NaN / pd.NA — `Val.nan`), or opaque text.
* A row is an association list from column name to value; a batch
  (DataFrame chunk) is a column-name list plus a list of rows.
* Python strings handled character-wise are modelled as `List Char`
  (`PyStr`); whitespace is modelled by `Char.isWhitespace` (the ASCII
  subset of Python's Unicode whitespace, sufficient for every claim).
-/

/-- A single cell value of a DataFrame column. `nan` is the explicit
missing marker (NaN for float columns, pd.NA for nullable-integer and
string columns); `pinf`/`ninf` are the IEEE infinities that float
division can produce. -/

inductive Val where
  | num (q : ℚ)
  | pinf
  | ninf
  | nan
  | text (s : String)
deriving DecidableEq, Repr

/-- A row: association list from column name to value. -/

abbrev Row := List (String × Val)

/-- Reading a cell. A column that is not present reads as the missing
marker (the pipeline only reads columns it has checked for presence). -/

def rget : Row → String → Val
  | [], _ => Val.nan
  | (k, v) :: t, c => if k = c then v else rget t c

/-- Column assignment for one row: replace the first binding of the
column, or append a new binding (pandas appends new columns at the end). -/

def rset : Row → String → Val → Row
  | [], c, v => [(c, v)]
  | (k, w) :: t, c, v => if k = c then (c, v) :: t else (k, w) :: rset t c v

/-- Dropping a column from one row. -/

def rdrop : Row → String → Row
  | [], _ => []
  | (k, w) :: t, c => if k = c then rdrop t c else (k, w) :: rdrop t c

/-- A batch of rows sharing a schema: one pandas DataFrame chunk. -/

structure Batch where
  cols : List String
  rows : List Row
deriving DecidableEq, Repr

/-- Column assignment on a batch (`df[c] = f(row)`): every row gets the
new value; the column is appended to the schema if not already present. -/

def Batch.setCol (b : Batch) (c : String) (f : Row → Val) : Batch :=
  ⟨if c ∈ b.cols then b.cols else b.cols ++ [c],
   b.rows.map fun r => rset r c (f r)⟩

/-- `df[c].isna().all()`: every value of the column is the missing marker. -/

def Batch.allNa (b : Batch) (c : String) : Bool :=
  b.rows.all fun r => rget r c == Val.nan

/-- Float subtraction on cell values (exact on finite values; IEEE rules
for infinities; any operation touching the missing marker, or an opaque
text value — which post-coercion never reaches arithmetic — is missing). -/

def vsub : Val → Val → Val
  | Val.num a, Val.num b => Val.num (a - b)
  | Val.num _, Val.pinf => Val.ninf
  | Val.num _, Val.ninf => Val.pinf
  | Val.pinf, Val.num _ => Val.pinf
  | Val.ninf, Val.num _ => Val.ninf
  | Val.pinf, Val.ninf => Val.pinf
  | Val.ninf, Val.pinf => Val.ninf
  | _, _ => Val.nan

/-- Float division on cell values. Exact on finite values with a nonzero
divisor. Division of a finite value by zero follows IEEE/numpy: `0/0` is
NaN, `a/0` for `a > 0` is `+inf`, for `a < 0` is `-inf` (the script
suppresses the warnings with `np.errstate` and keeps these results).
Negative zero is not representable in the ℚ model. -/

def vdiv : Val → Val → Val
  | Val.num a, Val.num b =>
      if b = 0 then
        if a = 0 then Val.nan else if 0 < a then Val.pinf else Val.ninf
      else Val.num (a / b)
  | Val.num _, Val.pinf => Val.num 0
  | Val.num _, Val.ninf => Val.num 0
  | Val.pinf, Val.num b => if b < 0 then Val.ninf else Val.pinf
  | Val.ninf, Val.num b => if b < 0 then Val.pinf else Val.ninf
  | _, _ => Val.nan

/-- `np.abs` on a cell value. -/

def vabs : Val → Val
  | Val.num a => Val.num |a|
  | Val.pinf => Val.pinf
  | Val.ninf => Val.pinf
  | _ => Val.nan

/-- Comparison `v >= q0` as pandas evaluates it in a boolean mask:
missing values (and the text values that coercion has removed by the
time such masks are built) compare as `False`. -/

def numGe (v : Val) (q0 : ℚ) : Bool :=
  match v with
  | Val.num a => decide (q0 ≤ a)
  | Val.pinf => true
  | _ => false

/-- Comparison `v <= q0` in a boolean mask; missing compares as `False`. -/

def numLe (v : Val) (q0 : ℚ) : Bool :=
  match v with
  | Val.num a => decide (a ≤ q0)
  | Val.ninf => true
  | _ => false

/-- Comparison `v < 0` in a boolean mask; missing compares as `False`. -/

def numLt0 (v : Val) : Bool :=
  match v with
  | Val.num a => decide (a < 0)
  | Val.ninf => true
  | _ => false

/-- Comparison `v >= 0` in a boolean mask; missing compares as `False`. -/

def numGe0 (v : Val) : Bool := numGe v 0

/-! ## Python string model and the Time Classifier (`time_hhmm`) -/

/-- Python strings processed character-wise. -/

abbrev PyStr := List Char

/-- `str.strip()`: remove leading and trailing whitespace. -/

def pyStrip (s : PyStr) : PyStr :=
  ((s.dropWhile Char.isWhitespace).reverse.dropWhile Char.isWhitespace).reverse

/-- Helper for `str.split()` (split on whitespace runs, no empty tokens). -/

def pySplitWsAux : PyStr → PyStr → List PyStr
  | [], acc => if acc = [] then [] else [acc.reverse]
  | c :: cs, acc =>
      if Char.isWhitespace c then
        if acc = [] then pySplitWsAux cs [] else acc.reverse :: pySplitWsAux cs []
      else pySplitWsAux cs (c :: acc)

/-- `str.split()` with no argument: split on runs of whitespace,
discarding empty tokens. -/

def pySplitWs (s : PyStr) : List PyStr := pySplitWsAux s []

/-- Helper for `str.split(":")`. -/

def pySplitColonAux : PyStr → PyStr → List PyStr
  | [], acc => [acc.reverse]
  | c :: cs, acc =>
      if c = ':' then acc.reverse :: pySplitColonAux cs [] else pySplitColonAux cs (c :: acc)

/-- `str.split(":")`: split at every colon, keeping empty pieces. -/

def pySplitColon (s : PyStr) : List PyStr := pySplitColonAux s []

/-- Python's `str.isdigit` for one character: true for ASCII digits and
for the other Unicode characters with a decimal/digit numeric type.
Beyond ASCII the table lists the ranges used in this development
(superscripts and subscripts, Arabic-Indic, extended Arabic-Indic,
Devanagari and fullwidth digits); Python accepts further Unicode digit
ranges with the same behaviour. -/

def pyCharIsDigit (c : Char) : Bool :=
  c.isDigit ||
  c = '¹' || c = '²' || c = '³' ||
  (0x2070 ≤ c.toNat && c.toNat ≤ 0x2079) ||
  (0x2080 ≤ c.toNat && c.toNat ≤ 0x2089) ||
  (0x660 ≤ c.toNat && c.toNat ≤ 0x669) ||
  (0x6F0 ≤ c.toNat && c.toNat ≤ 0x6F9) ||
  (0x966 ≤ c.toNat && c.toNat ≤ 0x96F) ||
  (0xFF10 ≤ c.toNat && c.toNat ≤ 0xFF19)

/-- `str.isdigit()` on a whole string (true only for nonempty all-digit
strings; the call sites below always check the length first). -/

def pyStrIsDigit (s : PyStr) : Bool := s ≠ [] && s.all pyCharIsDigit

/-- The Time Classifier `time_hhmm(s)`: `None` (absent) for a missing or
blank value; otherwise take the last whitespace-separated token, and if
its first five characters split on `":"` into two two-digit pieces,
return those five characters as `HH:MM`; in every other case absent.
Total — the `ValueError` from unpacking `split(":")` is caught. -/

def time_hhmm (s : Option PyStr) : Option PyStr :=
  match s with
  | none => none
  | some s0 =>
    let t := pyStrip s0
    if t = [] then none
    else
      let timeToken := ((pySplitWs t).getLast?).getD []
      if 5 ≤ timeToken.length && timeToken.contains ':' then
        let hhmm := timeToken.take 5
        match pySplitColon hhmm with
        | [hh, mm] =>
            if hh.length = 2 && mm.length = 2 && pyStrIsDigit hh && pyStrIsDigit mm then
              some (hh ++ ':' :: mm)
            else none
        | _ => none
      else none

/-! ## Numeric parsing (`pd.to_numeric(..., errors="coerce")` and the
`dtype=` conversion applied by `pd.read_csv`) -/

/-- Numeric value of a list of ASCII digits. -/

def natOfDigits (l : PyStr) : Nat :=
  l.foldl (fun n c => n * 10 + (c.toNat - 48)) 0

/-- Parse decimal/scientific numeric text the way the pandas numeric
conversion does: optional sign, digits with an optional fractional part,
optional exponent, surrounding whitespace allowed; the textual special
values `inf`/`infinity`/`nan` (any case, optionally signed) are
recognised. Exotic notations (underscore separators, hex) are outside
every claim and not modelled. `none` means the text fails to parse. -/

def parseNumV (s : PyStr) : Option Val :=
  let t := pyStrip s
  let (sgn, t1) : ℚ × PyStr :=
    match t with
    | '+' :: r => (1, r)
    | '-' :: r => (-1, r)
    | _ => (1, t)
  let lower := t1.map Char.toLower
  if lower = "nan".toList then some Val.nan
  else if lower = "inf".toList || lower = "infinity".toList then
    some (if sgn = 1 then Val.pinf else Val.ninf)
  else
    let intPart := t1.takeWhile Char.isDigit
    let rest := t1.dropWhile Char.isDigit
    let (fracPart, rest2) : PyStr × PyStr :=
      match rest with
      | '.' :: r => (r.takeWhile Char.isDigit, r.dropWhile Char.isDigit)
      | _ => ([], rest)
    if intPart = [] && fracPart = [] then none
    else
      let (expOk, expVal, rest3) : Bool × ℤ × PyStr :=
        match rest2 with
        | [] => (true, 0, [])
        | 'e' :: r =>
            let (es, r1) : ℤ × PyStr :=
              match r with
              | '+' :: rr => (1, rr)
              | '-' :: rr => (-1, rr)
              | _ => (1, r)
            let ed := r1.takeWhile Char.isDigit
            (ed ≠ [], es * natOfDigits ed, r1.dropWhile Char.isDigit)
        | 'E' :: r =>
            let (es, r1) : ℤ × PyStr :=
              match r with
              | '+' :: rr => (1, rr)
              | '-' :: rr => (-1, rr)
              | _ => (1, r)
            let ed := r1.takeWhile Char.isDigit
            (ed ≠ [], es * natOfDigits ed, r1.dropWhile Char.isDigit)
        | _ => (false, 0, rest2)
      if !expOk || rest3 ≠ [] then none
      else
        some (Val.num (sgn * ((natOfDigits intPart : ℚ) +
          (natOfDigits fracPart : ℚ) / (10 : ℚ) ^ fracPart.length) * (10 : ℚ) ^ expVal))

/-- `pd.to_numeric(v, errors="coerce")` on one cell: numeric and missing
values pass through, text parses or degrades to the missing marker. -/

def toNumeric : Val → Val
  | Val.num q => Val.num q
  | Val.pinf => Val.pinf
  | Val.ninf => Val.ninf
  | Val.nan => Val.nan
  | Val.text s => (parseNumV s.toList).getD Val.nan

/-! ## The script's constant tables -/

/-- `TIME_WHITELIST`. -/

def TIME_WHITELIST : List PyStr := ["09:30".toList, "15:45".toList]

/-- The `NUMERIC` dict: column name → declared numeric dtype, in source
order (Python dicts preserve insertion order). -/

def NUMERIC : List (String × String) := [
  ("QUOTE_UNIXTIME", "Int64"),
  ("QUOTE_TIME_HOURS", "float64"),
  ("UNDERLYING_LAST", "float64"),
  ("EXPIRE_UNIX", "Int64"),
  ("DTE", "Int64"),
  ("C_DELTA", "float64"), ("C_GAMMA", "float64"), ("C_VEGA", "float64"),
  ("C_THETA", "float64"), ("C_RHO", "float64"), ("C_IV", "float64"),
  ("C_VOLUME", "Int64"), ("C_LAST", "float64"),
  ("C_BID", "float64"), ("C_ASK", "float64"),
  ("STRIKE", "float64"),
  ("P_BID", "float64"), ("P_ASK", "float64"), ("P_LAST", "float64"),
  ("P_DELTA", "float64"), ("P_GAMMA", "float64"), ("P_VEGA", "float64"),
  ("P_THETA", "float64"), ("P_RHO", "float64"), ("P_IV", "float64"),
  ("P_VOLUME", "Int64"),
  ("STRIKE_DISTANCE", "float64"), ("STRIKE_DISTANCE_PCT", "float64")]

/-- `OUTPUT_ORDER`: the preferred analytical columns, in order. -/

def OUTPUT_ORDER : List String := [
  "QUOTE_READTIME", "UNDERLYING_LAST", "EXPIRE_DATE", "DTE",
  "C_THETA", "C_IV", "C_VOLUME", "C_LAST", "C_SIZE",
  "C_BID", "C_ASK", "STRIKE", "P_BID", "P_ASK", "P_SIZE", "P_LAST",
  "P_THETA", "P_IV", "P_VOLUME", "STRIKE_DISTANCE", "STRIKE_DISTANCE_PCT"]

/-- The fixed secondary (`extras`) list from `main`. -/

def EXTRAS_ORDER : List String := [
  "QUOTE_DATE", "QUOTE_TIME_HOURS", "EXPIRE_UNIX",
  "C_DELTA", "C_GAMMA", "C_VEGA", "C_RHO",
  "P_DELTA", "P_GAMMA", "P_VEGA", "P_RHO",
  "QUOTE_UNIXTIME", "P_VOLUME", "C_VOLUME", "HHMM"]

/-- `normalize_headers` on one name: trim, strip one matching pair of
square brackets, trim again. -/

def normalizeHeader (c : String) : String :=
  let c2 := c.trim
  if c2.startsWith "[" && c2.endsWith "]" then ((c2.drop 1).dropRight 1).trim else c2

/-- `normalize_headers` applied to a batch: pandas renames the column
labels; in the association-list model the row keys are renamed alike. -/

def normHeadersB (b : Batch) : Batch :=
  ⟨b.cols.map normalizeHeader,
   b.rows.map fun r => r.map fun p => (normalizeHeader p.1, p.2)⟩

/-! ## Numeric Coercer (`ensure_numeric`) -/

/-- The per-row effect of `ensure_numeric`: for each column of the
`NUMERIC` table (in order) that is present in the schema, coerce the
value with `pd.to_numeric(errors="coerce")`. The declared dtype in the
table is not consulted by the loop body — faithful to the source. -/

def ensureNumericRow (cols : List String) (r : Row) : Row :=
  NUMERIC.foldl (fun r' p => if p.1 ∈ cols then rset r' p.1 (toNumeric (rget r' p.1)) else r') r

/-- `ensure_numeric(df)`: coerce every `NUMERIC` column that is present.
The schema is unchanged (only existing columns are written). -/

def ensure_numeric (b : Batch) : Batch :=
  ⟨b.cols, b.rows.map (ensureNumericRow b.cols)⟩

/-! ## Distance Deriver (`compute_distances`) -/

/-- `compute_distances(df)`: when `STRIKE` and `UNDERLYING_LAST` are both
in the schema, (re)derive `STRIKE_DISTANCE = STRIKE - UNDERLYING_LAST`
when that column is absent or all-missing, then likewise derive
`STRIKE_DISTANCE_PCT = (STRIKE - UNDERLYING_LAST) / UNDERLYING_LAST`
(note: recomputed from `STRIKE` and `UNDERLYING_LAST`, not read from the
`STRIKE_DISTANCE` column) when that column is absent or all-missing. -/

def compute_distances (b : Batch) : Batch :=
  if "STRIKE" ∈ b.cols ∧ "UNDERLYING_LAST" ∈ b.cols then
    let b1 :=
      if "STRIKE_DISTANCE" ∉ b.cols ∨ b.allNa "STRIKE_DISTANCE" then
        b.setCol "STRIKE_DISTANCE"
          (fun r => vsub (rget r "STRIKE") (rget r "UNDERLYING_LAST"))
      else b
    if "STRIKE_DISTANCE_PCT" ∉ b1.cols ∨ b1.allNa "STRIKE_DISTANCE_PCT" then
      b1.setCol "STRIKE_DISTANCE_PCT"
        (fun r => vdiv (vsub (rget r "STRIKE") (rget r "UNDERLYING_LAST"))
                       (rget r "UNDERLYING_LAST"))
    else b1
  else b

/-! ## Group Selector (`select_10_above_below`) -/

/-- The strict ordering `sort_values` uses on the `_abs` column,
ascending: finite values by magnitude, `-inf` first, `+inf` after every
finite value, and unorderable values (the missing marker — pandas places
NaN last with the default `na_position`) after everything. -/

def valLtB : Val → Val → Bool
  | Val.num a, Val.num b => decide (a < b)
  | Val.ninf, Val.ninf => false
  | Val.ninf, _ => true
  | Val.num _, Val.pinf => true
  | Val.num _, Val.nan => true
  | Val.num _, Val.text _ => true
  | Val.pinf, Val.nan => true
  | Val.pinf, Val.text _ => true
  | _, _ => false

/-- Insert a row (earlier in the original order than everything already
placed) into a sorted list: it passes the strictly smaller keys and goes
in front of the first key it is not strictly greater than, hence in
front of rows with an equal key — the placement a stable sort gives. -/

def insertByCol (c : String) (x : Row) : List Row → List Row
  | [] => [x]
  | y :: ys => if valLtB (rget y c) (rget x c) then y :: insertByCol c x ys else x :: y :: ys

/-- Stable insertion sort by the value of one column, ascending — the
model of `sort_values(c, kind="stable")`. -/

def stableSortByCol (c : String) : List Row → List Row
  | [] => []
  | x :: xs => insertByCol c x (stableSortByCol c xs)

/-- The `_abs` annotation: `side["_abs"] = np.abs(side["STRIKE_DISTANCE"])`. -/

def annAbs (r : Row) : Row := rset r "_abs" (vabs (rget r "STRIKE_DISTANCE"))

/-- Dropping the temporary `_abs` column from a row. -/

def dropAbs (r : Row) : Row := rdrop r "_abs"

/-- The "below" subset of a partition: rows with `STRIKE_DISTANCE < 0`
(missing distances fail the mask and are excluded). -/

def sideBelow (b : Batch) : List Row :=
  b.rows.filter fun r => numLt0 (rget r "STRIKE_DISTANCE")

/-- The "above" subset of a partition: rows with `STRIKE_DISTANCE >= 0`
(missing distances fail the mask and are excluded). -/

def sideAbove (b : Batch) : List Row :=
  b.rows.filter fun r => numGe0 (rget r "STRIKE_DISTANCE")

/-- One side's selection: annotate with `_abs`, stable-sort by it
ascending, keep the first 10. -/

def pickSideSorted (rows : List Row) : List Row :=
  (stableSortByCol "_abs" (rows.map annAbs)).take 10

/-- `select_10_above_below(df)`: empty input is returned unchanged;
otherwise distances are (re)computed, the rows are partitioned on the
sign of `STRIKE_DISTANCE`, each side is stable-sorted by absolute
distance and truncated to 10 rows, and the output is below-then-above
with the temporary `_abs` column dropped. Accessing `STRIKE_DISTANCE`
when it is not in the schema raises `KeyError` — modelled as the error
result. -/

def select_10_above_below (b : Batch) : Except String Batch :=
  if b.rows = [] then Except.ok b
  else if "STRIKE_DISTANCE" ∈ (compute_distances b).cols then
    Except.ok
      ⟨((if "_abs" ∈ (compute_distances b).cols then (compute_distances b).cols
         else (compute_distances b).cols ++ ["_abs"]).filter fun c => c != "_abs"),
       (pickSideSorted (sideBelow (compute_distances b)) ++
        pickSideSorted (sideAbove (compute_distances b))).map dropAbs⟩
  else Except.error "KeyError: STRIKE_DISTANCE"

/-! ## Grouping (`groupby(group_cols, dropna=False, sort=False,
group_keys=False).apply(select_10_above_below)`) -/

/-- The group key of a row: the tuple of its grouping-column values. -/

def gkey (gcols : List String) (r : Row) : List Val := gcols.map (rget r)

/-- Group keys in order of first appearance (`sort=False`); missing keys
form groups of their own (`dropna=False`). -/

def firstKeys (gcols : List String) (rows : List Row) : List (List Val) :=
  rows.foldl (fun acc r => if gkey gcols r ∈ acc then acc else acc ++ [gkey gcols r]) []

/-- Apply the Group Selector to every group and concatenate the results
in group order (`group_keys=False` with `sort=False`); an exception in
any group propagates. All groups produce the same schema, taken from the
first part (the input schema if no rows exist). -/

def groupby_select (gcols : List String) (b : Batch) : Except String Batch :=
  ((firstKeys gcols b.rows).mapM fun k =>
      select_10_above_below ⟨b.cols, b.rows.filter fun r => decide (gkey gcols r = k)⟩).map
    fun parts => ⟨((parts.head?).map Batch.cols).getD b.cols, (parts.map Batch.rows).flatten⟩

/-! ## Batch Pipeline (`main` loop body) -/

/-- The DTE stage: when `DTE` is in the schema, coerce it to numeric and
keep only rows with `0 <= DTE <= 14` (a missing DTE fails the mask). -/

def stage_dte (b : Batch) : Batch :=
  if "DTE" ∈ b.cols then
    let b1 := b.setCol "DTE" (fun r => toNumeric (rget r "DTE"))
    ⟨b1.cols, b1.rows.filter fun r => numGe (rget r "DTE") 0 && numLe (rget r "DTE") 14⟩
  else b

/-- The value of a cell as the argument Python's `str()`-based
classification receives: missing stays missing, text is itself. The
`QUOTE_READTIME` column is read with a string dtype, so the remaining
constructors cannot occur there; they render as text for totality. -/

def valAsPyStr : Val → Option PyStr
  | Val.nan => none
  | Val.text s => some s.toList
  | Val.num q => some (toString q).toList
  | Val.pinf => some "inf".toList
  | Val.ninf => some "-inf".toList

/-- A row's classified quote time. -/

def classifyRow (r : Row) : Option PyStr := time_hhmm (valAsPyStr (rget r "QUOTE_READTIME"))

/-- `hhmm.isin(TIME_WHITELIST)`: an absent classification is not in the
whitelist. -/

def inWhitelist (o : Option PyStr) : Bool :=
  match o with
  | some t => decide (t ∈ TIME_WHITELIST)
  | none => false

/-- The time stage: when `QUOTE_READTIME` is in the schema, classify
every row, keep only rows whose classification is whitelisted, and store
the classification in a new `HHMM` column. -/

def stage_time (b : Batch) : Batch :=
  if "QUOTE_READTIME" ∈ b.cols then
    let kept := b.rows.filter fun r => inWhitelist (classifyRow r)
    ⟨if "HHMM" ∈ b.cols then b.cols else b.cols ++ ["HHMM"],
     kept.map fun r =>
       rset r "HHMM" (match classifyRow r with
                      | some t => Val.text (String.mk t)
                      | none => Val.nan)⟩
  else b

/-- The output column ordering built in `main`: the present
`OUTPUT_ORDER` columns first, then the present `extras`, then every
remaining column in its existing order. -/

def output_cols (selCols : List String) : List String :=
  let cols := OUTPUT_ORDER.filter fun c => decide (c ∈ selCols)
  let extras := EXTRAS_ORDER.filter fun c => decide (c ∈ selCols)
  cols ++ extras ++ selCols.filter fun c => decide (c ∉ cols ++ extras)

/-- The filter stages applied to a delivered chunk (lines 135-144). -/

def preFilter (b0 : Batch) : Batch := stage_time (stage_dte (normHeadersB b0))

/-- The chunk after numeric coercion and distance derivation (lines
149-150), as fed to the Group Selector. -/

def coerced (b0 : Batch) : Batch := compute_distances (ensure_numeric (preFilter b0))

/-- `group_cols`: whichever of the grouping columns are present. -/

def groupColsOf (b0 : Batch) : List String :=
  ["QUOTE_READTIME", "EXPIRE_DATE"].filter fun c => decide (c ∈ (coerced b0).cols)

/-- The selection step of the loop: grouped when grouping columns exist,
over the whole chunk otherwise. -/

def selectedOf (b0 : Batch) : Except String Batch :=
  if groupColsOf b0 = [] then select_10_above_below (coerced b0)
  else groupby_select (groupColsOf b0) (coerced b0)

/-- One iteration of the chunk loop in `main`: normalize headers, DTE
filter, time filter, skip to the next chunk if now empty, coerce numeric
columns, derive distances, group-select, skip if the selection is empty,
otherwise hand the column ordering and the selected batch to the output
sink. `Except.error` is an uncaught Python exception aborting the run;
`none` means the chunk produced no output. -/

def processChunk (b0 : Batch) : Except String (Option (List String × Batch)) :=
  if (preFilter b0).rows = [] then Except.ok none
  else
    match selectedOf b0 with
    | Except.error e => Except.error e
    | Except.ok selected =>
        if selected.rows = [] then Except.ok none
        else Except.ok (some (output_cols selected.cols, selected))

/-- The state of the output sink: the header row written once (on the
first chunk that produces output) and the data rows appended so far,
each projected to the chunk's output column order. -/

abbrev SinkState := Option (List String) × List (List Val)

/-- Append one selected batch to the sink, writing the header exactly
once. -/

def writeOut (st : SinkState) (colsOut : List String) (sel : Batch) : SinkState :=
  ((st.1).getD colsOut |> some,
   st.2 ++ sel.rows.map fun r => colsOut.map (rget r))

/-- The whole run over the delivered chunks: strictly sequential, one
shared sink, stopping at the first uncaught exception. -/

def runPipeline (chunks : List Batch) : Except String SinkState :=
  chunks.foldlM
    (fun st chunk => do
      match ← processChunk chunk with
      | none => pure st
      | some (colsOut, sel) => pure (writeOut st colsOut sel))
    ((none, []) : SinkState)

/-- The read side of `main`: `usecols = list(set(sample.columns))` is a
set whose iteration order Python does not fix across runs; pandas
delivers the file's columns (file order) restricted to that set. A chunk
as delivered is the raw chunk restricted to the `usecols` set. -/

def restrictCols (usecols : List String) (b : Batch) : Batch :=
  ⟨b.cols.filter (fun c => decide (c ∈ usecols)),
   b.rows.map fun r => r.filter fun p => decide (p.1 ∈ usecols)⟩

/-- A full run from the raw file chunks, given the `usecols` list the
run happened to produce. -/

def runFromFile (usecols : List String) (rawChunks : List Batch) : Except String SinkState :=
  runPipeline (rawChunks.map (restrictCols usecols))

/-! ## The dtype-enforced read (`pd.read_csv(..., dtype=dtype_map)`) -/

/-- `dtype_map`: `NUMERIC.get(col, "string")`. -/

def dtypeOf (c : String) : String :=
  ((NUMERIC.find? fun p => p.1 == c).map Prod.snd).getD "string"

/-- Reading one CSV field under a declared dtype, as `pd.read_csv` does
when `dtype=` is passed: an empty field is missing; under a numeric
dtype the text must parse — an unparseable field raises `ValueError`
(modelled as the error result), it is NOT coerced to missing. The
finer numeric distinctions (e.g. `Int64` rejecting fractional text) are
not needed by any claim and are not modelled. -/

def readField (dtype : String) (field : String) : Except String Val :=
  if dtype = "string" then
    Except.ok (if field = "" then Val.nan else Val.text field)
  else if field = "" then Except.ok Val.nan
  else
    match parseNumV field.toList with
    | some v => Except.ok v
    | none => Except.error ("could not convert string to " ++ dtype ++ ": " ++ field)

/-- Reading one data row of the file under `dtype_map`. -/

def readRow (cols : List String) (fields : List String) : Except String Row :=
  (cols.zip fields).mapM fun p => (readField (dtypeOf p.1) p.2).map fun v => (p.1, v)

/-! ## Analysis of the Time Classifier -/

/-- "The first five characters form `HH:MM`": exactly five characters,
the middle one a colon, the other four digits in the sense of Python's
`str.isdigit`. -/

def hhmmShape : PyStr → Bool
  | [h1, h2, c0, m1, m2] =>
      pyCharIsDigit h1 && pyCharIsDigit h2 && c0 == ':' && pyCharIsDigit m1 && pyCharIsDigit m2
  | _ => false

/-- The Time Classifier as the (amended) claim describes it: absent for
a missing or blank value, otherwise the first five characters of the
last whitespace-separated token exactly when they form `HH:MM` (with
digits in the sense of Python's `str.isdigit`), absent in every other
case. -/

def time_hhmm_spec (s : Option PyStr) : Option PyStr :=
  match s with
  | none => none
  | some s0 =>
      let t := pyStrip s0
      if t = [] then none
      else
        let tok := ((pySplitWs t).getLast?).getD []
        if hhmmShape (tok.take 5) then some (tok.take 5) else none

/-! ## Concrete inputs used by the claim theorems -/

/-- The `HH:MM` test exactly as the claim words it: both `HH` and `MM`
exactly two ASCII digits separated by a colon. -/

def asciiHHMM : PyStr → Bool
  | [h1, h2, c0, m1, m2] =>
      h1.isDigit && h2.isDigit && c0 == ':' && m1.isDigit && m2.isDigit
  | _ => false

/-- A timestamp whose last token starts with SUPERSCRIPT TWO — a
character Python's `str.isdigit` accepts but which is not an ASCII
digit. -/

def superDigitTime : PyStr := "²2:34".toList

/-- A batch with a partially populated `STRIKE_DISTANCE` column: row 0
carries a pre-supplied distance of `5` that disagrees with
`STRIKE - UNDERLYING_LAST = 10`; row 1's distance is missing, so the
column is not all-missing. `STRIKE_DISTANCE_PCT` is absent. -/

def presetDistanceBatch : Batch :=
  ⟨["STRIKE", "UNDERLYING_LAST", "STRIKE_DISTANCE"],
   [[("STRIKE", Val.num 100), ("UNDERLYING_LAST", Val.num 90), ("STRIKE_DISTANCE", Val.num 5)],
    [("STRIKE", Val.num 100), ("UNDERLYING_LAST", Val.num 90), ("STRIKE_DISTANCE", Val.nan)]]⟩

/-- A batch whose single row has a zero `UNDERLYING_LAST` and a nonzero
`STRIKE`, with no distance columns supplied. -/

def zeroUnderlyingBatch : Batch :=
  ⟨["STRIKE", "UNDERLYING_LAST"],
   [[("STRIKE", Val.num 100), ("UNDERLYING_LAST", Val.num 0)]]⟩

/-- A chunk with an ordinary full-ish schema including `C_VOLUME`, whose
single row passes both filters and is selected. -/

def volumeChunk : Batch :=
  ⟨["QUOTE_READTIME", "EXPIRE_DATE", "DTE", "UNDERLYING_LAST", "STRIKE", "C_VOLUME"],
   [[("QUOTE_READTIME", Val.text "2023-01-03 09:30:00"), ("EXPIRE_DATE", Val.text "2023-01-10"),
     ("DTE", Val.num 5), ("UNDERLYING_LAST", Val.num 90), ("STRIKE", Val.num 100),
     ("C_VOLUME", Val.num 7)]]⟩

/-- The column sequence `volumeChunk`'s output is written with. -/

def volumeChunkCols : List String :=
  match processChunk volumeChunk with
  | Except.ok (some p) => p.1
  | _ => []

/-- A chunk whose schema lacks `STRIKE`, `UNDERLYING_LAST` and
`STRIKE_DISTANCE` entirely, with one row that passes both filters. -/

def schemaAbsentChunk : Batch :=
  ⟨["QUOTE_READTIME", "EXPIRE_DATE", "DTE"],
   [[("QUOTE_READTIME", Val.text "2023-01-03 09:30:00"), ("EXPIRE_DATE", Val.text "2023-01-10"),
     ("DTE", Val.num 5)]]⟩

/-- The two derivation conditions, checked on the input batch. -/

def sdCond (b : Batch) : Prop := "STRIKE_DISTANCE" ∉ b.cols ∨ b.allNa "STRIKE_DISTANCE" = true

/-- The `STRIKE_DISTANCE_PCT` derivation condition on the input batch. -/

def pctCond (b : Batch) : Prop :=
  "STRIKE_DISTANCE_PCT" ∉ b.cols ∨ b.allNa "STRIKE_DISTANCE_PCT" = true

instance (b : Batch) : Decidable (sdCond b) := by unfold sdCond; infer_instance

instance (b : Batch) : Decidable (pctCond b) := by unfold pctCond; infer_instance

/-- The derived distance of a row. -/

def sdOf (r : Row) : Val := vsub (rget r "STRIKE") (rget r "UNDERLYING_LAST")

/-- The derived percentage distance of a row: recomputed from `STRIKE`
and `UNDERLYING_LAST` (line 96 of the source divides
`df["STRIKE"] - df["UNDERLYING_LAST"]`, not the `STRIKE_DISTANCE`
column). -/

def pctOf (r : Row) : Val :=
  vdiv (vsub (rget r "STRIKE") (rget r "UNDERLYING_LAST")) (rget r "UNDERLYING_LAST")

/-- Witness batch for C2: one row above (distance 1), one below
(distance -1). -/

def twoSideBatch : Batch :=
  ⟨["STRIKE", "UNDERLYING_LAST"],
   [[("STRIKE", Val.num 101), ("UNDERLYING_LAST", Val.num 100)],
    [("STRIKE", Val.num 99), ("UNDERLYING_LAST", Val.num 100)]]⟩

/-- The Group Selector's output on `twoSideBatch`. -/

def twoSideOut : Batch :=
  ⟨["STRIKE", "UNDERLYING_LAST", "STRIKE_DISTANCE", "STRIKE_DISTANCE_PCT"],
   [[("STRIKE", Val.num 99), ("UNDERLYING_LAST", Val.num 100),
     ("STRIKE_DISTANCE", Val.num (-1)), ("STRIKE_DISTANCE_PCT", Val.num (-1 / 100))],
    [("STRIKE", Val.num 101), ("UNDERLYING_LAST", Val.num 100),
     ("STRIKE_DISTANCE", Val.num 1), ("STRIKE_DISTANCE_PCT", Val.num (1 / 100))]]⟩

/-- Witness batch for C3: two rows on the same side with the same
absolute distance (a tie), distinguished by a `TAG` column. -/

def tieBatch : Batch :=
  ⟨["STRIKE", "UNDERLYING_LAST", "TAG"],
   [[("STRIKE", Val.num 105), ("UNDERLYING_LAST", Val.num 100), ("TAG", Val.text "a")],
    [("STRIKE", Val.num 105), ("UNDERLYING_LAST", Val.num 100), ("TAG", Val.text "b")]]⟩

/-- The Group Selector's output on `tieBatch`: the tie is resolved by
input order, `"a"` before `"b"`. -/

def tieOut : Batch :=
  ⟨["STRIKE", "UNDERLYING_LAST", "TAG", "STRIKE_DISTANCE", "STRIKE_DISTANCE_PCT"],
   [[("STRIKE", Val.num 105), ("UNDERLYING_LAST", Val.num 100), ("TAG", Val.text "a"),
     ("STRIKE_DISTANCE", Val.num 5), ("STRIKE_DISTANCE_PCT", Val.num (1 / 20))],
    [("STRIKE", Val.num 105), ("UNDERLYING_LAST", Val.num 100), ("TAG", Val.text "b"),
     ("STRIKE_DISTANCE", Val.num 5), ("STRIKE_DISTANCE_PCT", Val.num (1 / 20))]]⟩

/-! ## Lemmas about the Batch Pipeline stages (towards C6) -/

/-- The row predicate both filters enforce: whitelisted classification
and `0 <= DTE <= 14`. -/

def keptRow (r : Row) : Bool :=
  inWhitelist (classifyRow r) && (numGe (rget r "DTE") 0 && numLe (rget r "DTE") 14)

/-- The selected batch `volumeChunk` produces. -/

def volumeChunkSel : Batch :=
  ⟨["QUOTE_READTIME", "EXPIRE_DATE", "DTE", "UNDERLYING_LAST", "STRIKE", "C_VOLUME",
    "HHMM", "STRIKE_DISTANCE", "STRIKE_DISTANCE_PCT"],
   [[("QUOTE_READTIME", Val.text "2023-01-03 09:30:00"), ("EXPIRE_DATE", Val.text "2023-01-10"),
     ("DTE", Val.num 5), ("UNDERLYING_LAST", Val.num 90), ("STRIKE", Val.num 100),
     ("C_VOLUME", Val.num 7), ("HHMM", Val.text "09:30"),
     ("STRIKE_DISTANCE", Val.num 10), ("STRIKE_DISTANCE_PCT", Val.num (1 / 9))]]⟩

/-! ## Theorems -/

@[simp] theorem rget_rset_self (r : Row) (c : String) (v : Val) :
    rget (rset r c v) c = v := by
  induction r with
  | nil => simp [rset, rget]
  | cons p t ih =>
    obtain ⟨k, w⟩ := p
    by_cases h : k = c <;> simp [rset, rget, h, ih]

theorem rget_rset_ne (r : Row) {c c' : String} (v : Val) (h : c' ≠ c) :
    rget (rset r c v) c' = rget r c' := by
  induction r with
  | nil => simp [rset, rget, Ne.symm h]
  | cons p t ih =>
    obtain ⟨k, w⟩ := p
    by_cases hk : k = c
    · subst hk
      simp [rset, rget, Ne.symm h]
    · by_cases hk' : k = c' <;> simp [rset, rget, hk, hk', ih, h]

theorem rget_rdrop_ne (r : Row) {c c' : String} (h : c' ≠ c) :
    rget (rdrop r c) c' = rget r c' := by
  induction r with
  | nil => simp [rdrop]
  | cons p t ih =>
    obtain ⟨k, w⟩ := p
    by_cases hk : k = c
    · subst hk
      simp [rdrop, rget, Ne.symm h, ih]
    · by_cases hk' : k = c' <;> simp [rdrop, rget, hk, hk', ih, h]

/-! ## Lemmas about the stable sort -/

theorem valLtB_irrefl (v : Val) : valLtB v v = false := by
  cases v <;> simp [valLtB]

theorem valLtB_neg_trans {a b c : Val} (hab : valLtB a b = false) (hbc : valLtB b c = false) :
    valLtB a c = false := by
  cases a <;> cases b <;> cases c <;>
    (simp_all [valLtB]; try linarith)

theorem length_insertByCol (c : String) (x : Row) (l : List Row) :
    (insertByCol c x l).length = l.length + 1 := by
  induction l with
  | nil => simp [insertByCol]
  | cons y ys ih =>
    by_cases h : valLtB (rget y c) (rget x c) <;> simp [insertByCol, h, ih]

theorem length_stableSortByCol (c : String) (l : List Row) :
    (stableSortByCol c l).length = l.length := by
  induction l with
  | nil => rfl
  | cons x xs ih => simp [stableSortByCol, length_insertByCol, ih]

theorem valLtB_true_asymm {a b : Val} (h : valLtB a b = true) : valLtB b a = false := by
  cases a <;> cases b <;> (simp_all [valLtB]; try linarith)

theorem mem_insertByCol {c : String} {x y : Row} {l : List Row}
    (h : y ∈ insertByCol c x l) : y = x ∨ y ∈ l := by
  induction l with
  | nil => simpa [insertByCol] using h
  | cons z zs ih =>
    simp only [insertByCol] at h
    split at h
    · rcases List.mem_cons.mp h with rfl | h'
      · exact Or.inr (List.mem_cons_self _ _)
      · rcases ih h' with h'' | h''
        · exact Or.inl h''
        · exact Or.inr (List.mem_cons_of_mem _ h'')
    · rcases List.mem_cons.mp h with rfl | h'
      · exact Or.inl rfl
      · exact Or.inr h'

theorem mem_stableSortByCol {c : String} {y : Row} {l : List Row}
    (h : y ∈ stableSortByCol c l) : y ∈ l := by
  induction l with
  | nil => simp [stableSortByCol] at h
  | cons x xs ih =>
    rcases mem_insertByCol (c := c) (x := x) (l := stableSortByCol c xs) h with h' | h'
    · simp [h']
    · exact List.mem_cons_of_mem _ (ih h')

theorem pairwise_insertByCol {c : String} {x : Row} {l : List Row}
    (h : l.Pairwise fun u v => valLtB (rget v c) (rget u c) = false) :
    (insertByCol c x l).Pairwise fun u v => valLtB (rget v c) (rget u c) = false := by
  induction l with
  | nil => simp [insertByCol]
  | cons y ys ih =>
    rcases List.pairwise_cons.mp h with ⟨hy, hys⟩
    simp only [insertByCol]
    split
    case isTrue hlt =>
      refine List.pairwise_cons.mpr ⟨?_, ih hys⟩
      intro z hz
      rcases mem_insertByCol hz with rfl | hz'
      · exact valLtB_true_asymm hlt
      · exact hy z hz'
    case isFalse hlt =>
      refine List.pairwise_cons.mpr ⟨?_, h⟩
      intro z hz
      have hlt' : valLtB (rget y c) (rget x c) = false := by simpa using hlt
      rcases List.mem_cons.mp hz with rfl | hz'
      · exact hlt'
      · exact valLtB_neg_trans (hy z hz') hlt'

theorem pairwise_stableSortByCol (c : String) (l : List Row) :
    (stableSortByCol c l).Pairwise fun u v => valLtB (rget v c) (rget u c) = false := by
  induction l with
  | nil => simp [stableSortByCol]
  | cons x xs ih => exact pairwise_insertByCol ih

theorem filter_insertByCol_eq {c : String} {x : Row} {l : List Row} {k : Val}
    (hx : rget x c = k) :
    (insertByCol c x l).filter (fun r => rget r c == k) =
      x :: l.filter (fun r => rget r c == k) := by
  subst hx
  induction l with
  | nil => simp [insertByCol]
  | cons y ys ih =>
    simp only [insertByCol]
    split
    case isTrue hlt =>
      have hy : (rget y c == rget x c) = false := by
        refine beq_eq_false_iff_ne.mpr ?_
        intro hyk
        rw [hyk, valLtB_irrefl] at hlt
        exact Bool.false_ne_true hlt
      simp [List.filter_cons, hy, ih]
    case isFalse hlt =>
      simp [List.filter_cons]

theorem filter_insertByCol_ne {c : String} {x : Row} {l : List Row} {k : Val}
    (hx : rget x c ≠ k) :
    (insertByCol c x l).filter (fun r => rget r c == k) =
      l.filter (fun r => rget r c == k) := by
  have hxb : (rget x c == k) = false := beq_eq_false_iff_ne.mpr hx
  induction l with
  | nil => simp [insertByCol, hxb]
  | cons y ys ih =>
    simp only [insertByCol]
    split
    · simp [List.filter_cons, ih]
    · simp [List.filter_cons, hxb]

/-- Stability of the sort: for every key value, the rows carrying that
key appear in the sorted list exactly in their original relative order. -/

theorem stableSortByCol_filter_eq (c : String) (k : Val) (l : List Row) :
    (stableSortByCol c l).filter (fun r => rget r c == k) =
      l.filter (fun r => rget r c == k) := by
  induction l with
  | nil => rfl
  | cons x xs ih =>
    by_cases hx : rget x c = k
    · rw [stableSortByCol, filter_insertByCol_eq hx, ih, List.filter_cons,
        if_pos (by simp [hx])]
    · rw [stableSortByCol, filter_insertByCol_ne hx, ih, List.filter_cons,
        if_neg (by simp [hx])]

theorem hhmmShape_eq_false_of_length {r : PyStr} (h : r.length ≠ 5) :
    hhmmShape r = false := by
  rcases r with _ | ⟨a, _ | ⟨b, _ | ⟨c, _ | ⟨d, _ | ⟨e, _ | ⟨f, t⟩⟩⟩⟩⟩⟩ <;>
    first
      | rfl
      | (exfalso; simp at h)

theorem exists_five_of_length {l : PyStr} (h : l.length = 5) :
    ∃ a b c d e, l = [a, b, c, d, e] := by
  rcases l with _ | ⟨a, _ | ⟨b, _ | ⟨c, _ | ⟨d, _ | ⟨e, _ | ⟨f, t⟩⟩⟩⟩⟩⟩ <;>
    simp_all

theorem hhmmShape_mem_colon {r : PyStr} (h : hhmmShape r = true) : ':' ∈ r := by
  rcases r with _ | ⟨a, _ | ⟨b, _ | ⟨c, _ | ⟨d, _ | ⟨e, _ | ⟨f, t⟩⟩⟩⟩⟩⟩ <;>
    simp_all [hhmmShape]

theorem splitColon_five_branch (a b c d e : Char) :
    (match pySplitColon [a, b, c, d, e] with
     | [hh, mm] =>
         if hh.length = 2 && mm.length = 2 && pyStrIsDigit hh && pyStrIsDigit mm then
           some (hh ++ ':' :: mm)
         else none
     | _ => none) =
      (if hhmmShape [a, b, c, d, e] then some [a, b, c, d, e] else none) := by
  have hpc : pyCharIsDigit ':' = false := by decide
  by_cases ha : a = ':' <;> by_cases hb : b = ':' <;> by_cases hc : c = ':' <;>
    by_cases hd : d = ':' <;> by_cases he : e = ':' <;>
      simp_all [pySplitColon, pySplitColonAux, pyStrIsDigit, hhmmShape, and_assoc]

/-- The Time Classifier agrees everywhere with its specification-shaped
description (digits in the sense of Python's `str.isdigit`): it returns
the first five characters of the last whitespace-separated token exactly
when they form `HH:MM`, and absent for a missing or blank value and in
every other case. Being a total function, it never raises — the
`ValueError` from unpacking `split(":")` is caught in the source. -/

theorem time_hhmm_eq_spec (s : Option PyStr) : time_hhmm s = time_hhmm_spec s := by
  cases s with
  | none => rfl
  | some s0 =>
    simp only [time_hhmm, time_hhmm_spec]
    by_cases ht : pyStrip s0 = []
    · simp [ht]
    · simp only [ht, if_neg, ite_false]
      set tok := ((pySplitWs (pyStrip s0)).getLast?).getD [] with htok
      by_cases hlen : 5 ≤ tok.length
      · by_cases hcol : tok.contains ':'
        · have h5 : (tok.take 5).length = 5 := by
            simp [List.length_take]
            omega
          obtain ⟨a, b, c, d, e, heq⟩ := exists_five_of_length h5
          simp only [hlen, hcol, Bool.and_self, decide_True, Bool.and_true, ite_true,
            decide_eq_true_eq, if_pos, heq]
          simpa using splitColon_five_branch a b c d e
        · have hnotmem : ':' ∉ tok := fun hm => hcol (List.elem_eq_true_of_mem hm)
          have hsh : hhmmShape (tok.take 5) = false := by
            cases hsh : hhmmShape (tok.take 5)
            · rfl
            · exact absurd (List.take_subset 5 tok (hhmmShape_mem_colon hsh)) hnotmem
          simp [hlen, hnotmem, hsh]
      · have hsh : hhmmShape (tok.take 5) = false := by
          apply hhmmShape_eq_false_of_length
          simp [List.length_take]
          omega
        simp [hlen, hsh]

/-! ## Claim theorems -/

/-- C1 (code_bug): the claim — and the spec's Scenario D — says a value
that fails to parse as its declared numeric type becomes the missing
marker and the run does not abort. The Numeric Coercer would indeed do
that (`toNumeric` degrades `"abc"` to missing), but `main` passes
`dtype_map` to `pd.read_csv`, so the read itself enforces the declared
dtype and raises `ValueError` on `STRIKE="abc"` before `ensure_numeric`
can run: the run aborts. -/

theorem C1_read_aborts :
    readRow ["STRIKE"] ["abc"] = Except.error "could not convert string to float64: abc" ∧
      toNumeric (Val.text "abc") = Val.nan := by
  constructor
  · rfl
  · rfl

/-- C10 (code_bug): the claim says a batch whose schema lacks an
expected column is processed without a fatal error, the dependent
features being skipped. Distance derivation and grouping do degrade
gracefully, but `select_10_above_below` reads `df["STRIKE_DISTANCE"]`
without a presence check: on a filtered-nonempty chunk with no
`STRIKE`, `UNDERLYING_LAST` or `STRIKE_DISTANCE` column the run aborts
with a `KeyError`. -/

theorem C10_missing_column_aborts :
    processChunk schemaAbsentChunk = Except.error "KeyError: STRIKE_DISTANCE" := by
  with_unfolding_all rfl

/-- C7 counterexample: on the value `"²2:34"` the Time Classifier
returns the first five characters of the token even though they are not
`HH:MM` with ASCII digits (SUPERSCRIPT TWO passes Python's
`str.isdigit`), so "returns ... if and only if ... exactly two ASCII
digits" is false as stated. -/

theorem C7_counterexample :
    time_hhmm (some superDigitTime) = some superDigitTime ∧
      asciiHHMM superDigitTime = false ∧
      ((pySplitWs (pyStrip superDigitTime)).getLast?.getD []).take 5 = superDigitTime := by
  refine ⟨rfl, by decide, rfl⟩

/-- C4 counterexample: with `STRIKE_DISTANCE` partially populated (left
untouched, still `5` on row 0) and `STRIKE_DISTANCE_PCT` absent, the
derived percentage on row 0 is `(STRIKE - UNDERLYING_LAST) /
UNDERLYING_LAST = 10/90 = 1/9`, not `STRIKE_DISTANCE / UNDERLYING_LAST
= 5/90 = 1/18` as the claim states. -/

theorem C4_counterexample :
    rget ((compute_distances presetDistanceBatch).rows.headD []) "STRIKE_DISTANCE" = Val.num 5 ∧
      rget ((compute_distances presetDistanceBatch).rows.headD []) "STRIKE_DISTANCE_PCT" =
        Val.num (1 / 9) ∧
      vdiv (Val.num 5) (Val.num 90) = Val.num (1 / 18) ∧
      Val.num (1 / 9) ≠ Val.num (1 / 18) := by
  refine ⟨by with_unfolding_all rfl, by with_unfolding_all rfl, by with_unfolding_all rfl,
    by with_unfolding_all decide⟩

/-- C5 counterexample: deriving `STRIKE_DISTANCE_PCT` for a row with
`UNDERLYING_LAST = 0` and `STRIKE = 100` yields `+inf` (float semantics
of `100.0 / 0.0`, the warning being suppressed by `np.errstate`), not
the missing marker the claim requires for every division by zero. -/

theorem C5_counterexample :
    rget ((compute_distances zeroUnderlyingBatch).rows.headD []) "STRIKE_DISTANCE_PCT" =
        Val.pinf ∧
      Val.pinf ≠ Val.nan := by
  refine ⟨by with_unfolding_all rfl, by decide⟩

/-- C8 counterexample: `C_VOLUME` is listed both in `OUTPUT_ORDER` and
in the secondary `extras` list, so a written batch containing it has it
twice in the output column sequence — the sequence is not a partition
with every column exactly once. -/

theorem C8_counterexample :
    volumeChunkCols.count "C_VOLUME" = 2 := by
  with_unfolding_all rfl

/-! ## Lemmas about `Batch.setCol` and `compute_distances` -/

theorem rows_setCol (b : Batch) (c : String) (f : Row → Val) :
    (b.setCol c f).rows = b.rows.map fun r => rset r c (f r) := rfl

theorem mem_setCol_cols (b : Batch) (c c' : String) (f : Row → Val) :
    c' ∈ (b.setCol c f).cols ↔ c' ∈ b.cols ∨ c' = c := by
  by_cases h : c ∈ b.cols
  · simp only [Batch.setCol, if_pos h]
    constructor
    · exact Or.inl
    · rintro (h' | rfl) <;> assumption
  · simp [Batch.setCol, if_neg h]

theorem allNa_setCol_ne (b : Batch) {c c' : String} (f : Row → Val) (h : c' ≠ c) :
    (b.setCol c f).allNa c' = b.allNa c' := by
  simp [Batch.setCol, Batch.allNa, List.all_map, Function.comp_def, rget_rset_ne, h]

theorem map_rget_setCol_self (b : Batch) (c : String) (f : Row → Val) :
    (b.setCol c f).rows.map (fun r => rget r c) = b.rows.map f := by
  simp [Batch.setCol, List.map_map, Function.comp_def]

theorem map_rget_setCol_ne (b : Batch) {c c' : String} (f : Row → Val) (h : c' ≠ c) :
    (b.setCol c f).rows.map (fun r => rget r c') = b.rows.map (fun r => rget r c') := by
  simp [Batch.setCol, List.map_map, Function.comp_def, rget_rset_ne, h]

theorem compute_distances_eq (b : Batch)
    (hS : "STRIKE" ∈ b.cols) (hU : "UNDERLYING_LAST" ∈ b.cols) :
    compute_distances b =
      (let b1 := if sdCond b then b.setCol "STRIKE_DISTANCE" sdOf else b
       if pctCond b then b1.setCol "STRIKE_DISTANCE_PCT" pctOf else b1) := by
  have hne : ("STRIKE_DISTANCE_PCT" : String) ≠ "STRIKE_DISTANCE" := by decide
  simp only [compute_distances, if_pos (And.intro hS hU)]
  by_cases h1 : sdCond b
  · have h1' := h1
    unfold sdCond at h1'
    by_cases h2 : pctCond b
    · have h2' := h2
      unfold pctCond at h2'
      simp only [if_pos h1, if_pos h2, if_pos h1']
      have hcnd : ("STRIKE_DISTANCE_PCT" ∉ (b.setCol "STRIKE_DISTANCE" sdOf).cols ∨
          (b.setCol "STRIKE_DISTANCE" sdOf).allNa "STRIKE_DISTANCE_PCT" = true) := by
        rcases h2' with h2' | h2'
        · exact Or.inl (by
            rw [mem_setCol_cols]
            rintro (h | h)
            · exact h2' h
            · exact hne h)
        · exact Or.inr (by rw [allNa_setCol_ne _ _ hne]; exact h2')
      rw [if_pos (by simpa using hcnd)]
      rfl
    · have h2' := h2
      unfold pctCond at h2'
      simp only [if_pos h1, if_neg h2, if_pos h1']
      have hcnd : ¬("STRIKE_DISTANCE_PCT" ∉ (b.setCol "STRIKE_DISTANCE" sdOf).cols ∨
          (b.setCol "STRIKE_DISTANCE" sdOf).allNa "STRIKE_DISTANCE_PCT" = true) := by
        push_neg at h2' ⊢
        refine ⟨?_, ?_⟩
        · rw [mem_setCol_cols]
          exact Or.inl h2'.1
        · rw [allNa_setCol_ne _ _ hne]
          exact h2'.2
      rw [if_neg (by simpa using hcnd)]
      rfl
  · have h1' := h1
    unfold sdCond at h1'
    by_cases h2 : pctCond b
    · have h2' := h2
      unfold pctCond at h2'
      simp only [if_neg h1, if_pos h2, if_neg h1']
      rw [if_pos (by simpa using h2')]
      rfl
    · have h2' := h2
      unfold pctCond at h2'
      simp only [if_neg h1, if_neg h2, if_neg h1']
      rw [if_neg (by simpa using h2')]

theorem pctOf_rset_sd (r : Row) (v : Val) :
    pctOf (rset r "STRIKE_DISTANCE" v) = pctOf r := by
  unfold pctOf
  rw [rget_rset_ne _ _ (by decide), rget_rset_ne _ _ (by decide)]

/-- When the percentage column is to be derived, its derived values are
`(STRIKE - UNDERLYING_LAST) / UNDERLYING_LAST` row by row. -/

theorem pct_map_of_cond (b : Batch)
    (hS : "STRIKE" ∈ b.cols) (hU : "UNDERLYING_LAST" ∈ b.cols) (hP : pctCond b) :
    ((compute_distances b).rows.map fun r => rget r "STRIKE_DISTANCE_PCT") =
      b.rows.map pctOf := by
  rw [compute_distances_eq b hS hU]
  by_cases h1 : sdCond b
  · simp only [if_pos h1, if_pos hP]
    rw [map_rget_setCol_self]
    simp [rows_setCol, List.map_map, Function.comp_def, pctOf_rset_sd]
  · simp only [if_neg h1, if_pos hP]
    rw [map_rget_setCol_self]

/-- C4 (amended): for a batch with `STRIKE` and `UNDERLYING_LAST` in the
schema, `STRIKE_DISTANCE` is overwritten with `STRIKE - UNDERLYING_LAST`
exactly when that column is absent or all-missing (a partially populated
column is left untouched), and — under its analogous condition —
`STRIKE_DISTANCE_PCT` is derived as
`(STRIKE - UNDERLYING_LAST) / UNDERLYING_LAST`, recomputed directly from
`STRIKE` and `UNDERLYING_LAST`; pre-supplied `STRIKE_DISTANCE` values do
not enter the percentage (the unamended claim's
`STRIKE_DISTANCE / UNDERLYING_LAST` reading fails, see the
counterexample). -/

theorem C4_distance_derivation (b : Batch)
    (hS : "STRIKE" ∈ b.cols) (hU : "UNDERLYING_LAST" ∈ b.cols) :
    ((compute_distances b).rows.map fun r => rget r "STRIKE_DISTANCE") =
      (if sdCond b then b.rows.map sdOf
       else b.rows.map fun r => rget r "STRIKE_DISTANCE") ∧
    ((compute_distances b).rows.map fun r => rget r "STRIKE_DISTANCE_PCT") =
      (if pctCond b then b.rows.map pctOf
       else b.rows.map fun r => rget r "STRIKE_DISTANCE_PCT") := by
  rw [compute_distances_eq b hS hU]
  have hne : ("STRIKE_DISTANCE_PCT" : String) ≠ "STRIKE_DISTANCE" := by decide
  have hne' : ("STRIKE_DISTANCE" : String) ≠ "STRIKE_DISTANCE_PCT" := by decide
  by_cases h1 : sdCond b <;> by_cases h2 : pctCond b
  · refine ⟨?_, ?_⟩
    · rw [if_pos h1]
      simp only [if_pos h1, if_pos h2]
      rw [map_rget_setCol_ne _ _ hne', map_rget_setCol_self]
    · rw [if_pos h2]
      simp only [if_pos h1, if_pos h2]
      rw [map_rget_setCol_self]
      simp [rows_setCol, List.map_map, Function.comp_def, pctOf_rset_sd]
  · refine ⟨?_, ?_⟩
    · rw [if_pos h1]
      simp only [if_pos h1, if_neg h2]
      rw [map_rget_setCol_self]
    · rw [if_neg h2]
      simp only [if_pos h1, if_neg h2]
      rw [map_rget_setCol_ne _ _ hne]
  · refine ⟨?_, ?_⟩
    · rw [if_neg h1]
      simp only [if_neg h1, if_pos h2]
      rw [map_rget_setCol_ne _ _ hne']
    · rw [if_pos h2]
      simp only [if_neg h1, if_pos h2]
      rw [map_rget_setCol_self]
  · refine ⟨?_, ?_⟩
    · rw [if_neg h1]
      simp only [if_neg h1, if_neg h2]
    · rw [if_neg h2]
      simp only [if_neg h1, if_neg h2]

/-- Witness for C4: `presetDistanceBatch` has both operand columns; its
partially populated `STRIKE_DISTANCE` is kept and its absent
`STRIKE_DISTANCE_PCT` is derived from `STRIKE` and `UNDERLYING_LAST`. -/

theorem C4_witness :
    ("STRIKE" ∈ presetDistanceBatch.cols) ∧
    ("UNDERLYING_LAST" ∈ presetDistanceBatch.cols) ∧
    (((compute_distances presetDistanceBatch).rows.map fun r => rget r "STRIKE_DISTANCE") =
      (if sdCond presetDistanceBatch then presetDistanceBatch.rows.map sdOf
       else presetDistanceBatch.rows.map fun r => rget r "STRIKE_DISTANCE") ∧
     ((compute_distances presetDistanceBatch).rows.map fun r => rget r "STRIKE_DISTANCE_PCT") =
      (if pctCond presetDistanceBatch then presetDistanceBatch.rows.map pctOf
       else presetDistanceBatch.rows.map fun r => rget r "STRIKE_DISTANCE_PCT")) :=
  ⟨by decide, by decide, C4_distance_derivation presetDistanceBatch (by decide) (by decide)⟩

theorem vdiv_vsub_nanL (u : Val) : vdiv (vsub Val.nan u) u = Val.nan := by
  cases u <;> simp [vsub, vdiv]

theorem vdiv_vsub_nanR (s : Val) : vdiv (vsub s Val.nan) Val.nan = Val.nan := by
  cases s <;> simp [vsub, vdiv]

theorem vdiv_vsub_zero_den (a : ℚ) :
    vdiv (vsub (Val.num a) (Val.num 0)) (Val.num 0) =
      if a = 0 then Val.nan else if 0 < a then Val.pinf else Val.ninf := by
  simp [vsub, vdiv]

theorem pct_missing_operand (r : Row)
    (h : rget r "STRIKE" = Val.nan ∨ rget r "UNDERLYING_LAST" = Val.nan) :
    pctOf r = Val.nan := by
  unfold pctOf
  rcases h with h | h
  · rw [h]
    exact vdiv_vsub_nanL _
  · rw [h]
    exact vdiv_vsub_nanR _

/-- C5 (amended): when `STRIKE_DISTANCE_PCT` is derived, a missing
operand makes the derived value the missing marker, and the derivation
is a total function (the run never aborts there); but division by a zero
`UNDERLYING_LAST` produces the missing marker only when the numerator
`STRIKE - UNDERLYING_LAST` is also zero — with a nonzero numerator it
produces a signed infinity, not the missing marker (see the
counterexample against the unamended claim). -/

theorem C5_pct_derivation (b : Batch)
    (hS : "STRIKE" ∈ b.cols) (hU : "UNDERLYING_LAST" ∈ b.cols) (hP : pctCond b) :
    ((compute_distances b).rows.map fun r => rget r "STRIKE_DISTANCE_PCT") =
      b.rows.map pctOf ∧
    (b.rows.all fun r =>
      !(rget r "STRIKE" == Val.nan || rget r "UNDERLYING_LAST" == Val.nan) ||
        (pctOf r == Val.nan)) = true ∧
    (b.rows.all fun r =>
      match rget r "STRIKE", rget r "UNDERLYING_LAST" with
      | Val.num a, Val.num u =>
          if u = 0 then
            (if a = 0 then pctOf r == Val.nan else (pctOf r == Val.pinf || pctOf r == Val.ninf))
          else true
      | _, _ => true) = true := by
  refine ⟨?_, ?_, ?_⟩
  · exact pct_map_of_cond b hS hU hP
  · rw [List.all_eq_true]
    intro r hr
    by_cases hs : rget r "STRIKE" = Val.nan
    · simp [pct_missing_operand r (Or.inl hs)]
    · by_cases hu : rget r "UNDERLYING_LAST" = Val.nan
      · simp [pct_missing_operand r (Or.inr hu)]
      · simp [hs, hu]
  · rw [List.all_eq_true]
    intro r hr
    cases hs : rget r "STRIKE" <;> cases hu : rget r "UNDERLYING_LAST" <;> simp
    case num.num a u =>
      by_cases hu0 : u = 0
      · subst hu0
        have : pctOf r = if a = 0 then Val.nan else if 0 < a then Val.pinf else Val.ninf := by
          unfold pctOf
          rw [hs, hu]
          exact vdiv_vsub_zero_den a
        by_cases ha : a = 0
        · simp [this, ha]
        · by_cases hap : 0 < a <;> simp [this, ha, hap]
      · simp [hu0]

/-! ## Lemmas about the Group Selector -/

theorem length_rows_setCol (b : Batch) (c : String) (f : Row → Val) :
    (b.setCol c f).rows.length = b.rows.length := by
  simp [Batch.setCol]

theorem rows_compute_distances_nil (b : Batch) (h : b.rows = []) :
    (compute_distances b).rows = [] := by
  unfold compute_distances
  split
  · dsimp only
    split <;> split <;> simp [Batch.setCol, h]
  · exact h

theorem select_ok_of_nonempty (b : Batch) (h1 : ¬b.rows = [])
    (h2 : "STRIKE_DISTANCE" ∈ (compute_distances b).cols) :
    select_10_above_below b = Except.ok
      ⟨((if "_abs" ∈ (compute_distances b).cols then (compute_distances b).cols
         else (compute_distances b).cols ++ ["_abs"]).filter fun c => c != "_abs"),
       (pickSideSorted (sideBelow (compute_distances b)) ++
        pickSideSorted (sideAbove (compute_distances b))).map dropAbs⟩ := by
  unfold select_10_above_below
  rw [if_neg h1, if_pos h2]

theorem length_pickSideSorted (l : List Row) :
    (pickSideSorted l).length = min 10 l.length := by
  simp [pickSideSorted, List.length_take, length_stableSortByCol]

theorem mem_pickSideSorted {l : List Row} {r : Row} (h : r ∈ pickSideSorted l) :
    ∃ r0 ∈ l, r = annAbs r0 := by
  have h1 : r ∈ stableSortByCol "_abs" (l.map annAbs) := List.take_subset _ _ h
  have h2 : r ∈ l.map annAbs := mem_stableSortByCol h1
  rcases List.mem_map.mp h2 with ⟨r0, hr0, hr⟩
  exact ⟨r0, hr0, hr.symm⟩

theorem rget_annAbs_ne (r : Row) {c : String} (h : c ≠ "_abs") :
    rget (annAbs r) c = rget r c := rget_rset_ne _ _ h

theorem rget_dropAbs_ne (r : Row) {c : String} (h : c ≠ "_abs") :
    rget (dropAbs r) c = rget r c := rget_rdrop_ne _ h

theorem numLt0_numGe0_mutex (v : Val) : (numLt0 v && numGe0 v) = false := by
  cases v <;> simp [numLt0, numGe0, numGe]

/-- C2: in every group processed by the Group Selector, the below side
holds only rows with `STRIKE_DISTANCE < 0` and the above side only rows
with `STRIKE_DISTANCE >= 0` (distance exactly 0 lands above), the two
masks are mutually exclusive so no row is on both sides, rows with a
missing distance satisfy neither mask and are on neither side, and each
side contributes `min 10 (side size)` rows — at most 10 per side, at
most 20 in all, with no padding. -/

theorem C2_partition_and_bounds (b : Batch) (out : Batch)
    (h : select_10_above_below b = Except.ok out)
    (h2 : "STRIKE_DISTANCE" ∈ (compute_distances b).cols) :
    out.rows = (pickSideSorted (sideBelow (compute_distances b)) ++
                pickSideSorted (sideAbove (compute_distances b))).map dropAbs ∧
    (pickSideSorted (sideBelow (compute_distances b))).length =
      min 10 (sideBelow (compute_distances b)).length ∧
    (pickSideSorted (sideAbove (compute_distances b))).length =
      min 10 (sideAbove (compute_distances b)).length ∧
    out.rows.length ≤ 20 ∧
    (((pickSideSorted (sideBelow (compute_distances b))).map dropAbs).all
      fun r => numLt0 (rget r "STRIKE_DISTANCE")) = true ∧
    (((pickSideSorted (sideAbove (compute_distances b))).map dropAbs).all
      fun r => numGe0 (rget r "STRIKE_DISTANCE")) = true ∧
    ((compute_distances b).rows.all
      fun r => !(numLt0 (rget r "STRIKE_DISTANCE") && numGe0 (rget r "STRIKE_DISTANCE"))) = true ∧
    numGe0 (Val.num 0) = true ∧ numLt0 (Val.num 0) = false ∧
    numGe0 Val.nan = false ∧ numLt0 Val.nan = false := by
  have hsdne : ("STRIKE_DISTANCE" : String) ≠ "_abs" := by decide
  have hbelow : (((pickSideSorted (sideBelow (compute_distances b))).map dropAbs).all
      fun r => numLt0 (rget r "STRIKE_DISTANCE")) = true := by
    rw [List.all_eq_true]
    intro r hr
    rcases List.mem_map.mp hr with ⟨r1, hr1, rfl⟩
    rcases mem_pickSideSorted hr1 with ⟨r0, hr0, rfl⟩
    rw [rget_dropAbs_ne _ hsdne, rget_annAbs_ne _ hsdne]
    exact (List.mem_filter.mp hr0).2
  have habove : (((pickSideSorted (sideAbove (compute_distances b))).map dropAbs).all
      fun r => numGe0 (rget r "STRIKE_DISTANCE")) = true := by
    rw [List.all_eq_true]
    intro r hr
    rcases List.mem_map.mp hr with ⟨r1, hr1, rfl⟩
    rcases mem_pickSideSorted hr1 with ⟨r0, hr0, rfl⟩
    rw [rget_dropAbs_ne _ hsdne, rget_annAbs_ne _ hsdne]
    exact (List.mem_filter.mp hr0).2
  have hmutex : ((compute_distances b).rows.all
      fun r => !(numLt0 (rget r "STRIKE_DISTANCE") && numGe0 (rget r "STRIKE_DISTANCE"))) = true := by
    rw [List.all_eq_true]
    intro r hr
    simp [numLt0_numGe0_mutex]
  have hrows : out.rows = (pickSideSorted (sideBelow (compute_distances b)) ++
      pickSideSorted (sideAbove (compute_distances b))).map dropAbs := by
    by_cases hemp : b.rows = []
    · unfold select_10_above_below at h
      rw [if_pos hemp] at h
      have hout : out = b := (Except.ok.injEq _ _).mp h.symm
      have hnil := rows_compute_distances_nil b hemp
      simp [hout, hemp, sideBelow, sideAbove, hnil, pickSideSorted, stableSortByCol]
    · rw [select_ok_of_nonempty b hemp h2] at h
      have hout := (Except.ok.injEq _ _).mp h.symm
      rw [hout]
  refine ⟨hrows, length_pickSideSorted _, length_pickSideSorted _, ?_, hbelow, habove, hmutex,
    by decide, by decide, by decide, by decide⟩
  rw [hrows]
  have hb := length_pickSideSorted (sideBelow (compute_distances b))
  have ha := length_pickSideSorted (sideAbove (compute_distances b))
  simp only [List.length_map, List.length_append]
  omega

/-- Witness for C2 at `twoSideBatch`. -/

theorem C2_witness :
    select_10_above_below twoSideBatch = Except.ok twoSideOut ∧
    "STRIKE_DISTANCE" ∈ (compute_distances twoSideBatch).cols ∧
    (twoSideOut.rows = (pickSideSorted (sideBelow (compute_distances twoSideBatch)) ++
        pickSideSorted (sideAbove (compute_distances twoSideBatch))).map dropAbs ∧
     (pickSideSorted (sideBelow (compute_distances twoSideBatch))).length =
       min 10 (sideBelow (compute_distances twoSideBatch)).length ∧
     (pickSideSorted (sideAbove (compute_distances twoSideBatch))).length =
       min 10 (sideAbove (compute_distances twoSideBatch)).length ∧
     twoSideOut.rows.length ≤ 20 ∧
     (((pickSideSorted (sideBelow (compute_distances twoSideBatch))).map dropAbs).all
       fun r => numLt0 (rget r "STRIKE_DISTANCE")) = true ∧
     (((pickSideSorted (sideAbove (compute_distances twoSideBatch))).map dropAbs).all
       fun r => numGe0 (rget r "STRIKE_DISTANCE")) = true ∧
     ((compute_distances twoSideBatch).rows.all
       fun r => !(numLt0 (rget r "STRIKE_DISTANCE") && numGe0 (rget r "STRIKE_DISTANCE"))) = true ∧
     numGe0 (Val.num 0) = true ∧ numLt0 (Val.num 0) = false ∧
     numGe0 Val.nan = false ∧ numLt0 Val.nan = false) :=
  ⟨by with_unfolding_all rfl, by with_unfolding_all decide,
   C2_partition_and_bounds twoSideBatch twoSideOut (by with_unfolding_all rfl)
     (by with_unfolding_all decide)⟩

theorem pairwise_pickSideSorted (l : List Row) :
    ((pickSideSorted l).map dropAbs).Pairwise
      (fun u v => valLtB (vabs (rget v "STRIKE_DISTANCE"))
        (vabs (rget u "STRIKE_DISTANCE")) = false) := by
  have hne : ("STRIKE_DISTANCE" : String) ≠ "_abs" := by decide
  have hs := pairwise_stableSortByCol "_abs" (l.map annAbs)
  have ht : (pickSideSorted l).Pairwise
      (fun u v => valLtB (rget v "_abs") (rget u "_abs") = false) :=
    hs.sublist (List.take_sublist 10 _)
  have hmem : ∀ r ∈ pickSideSorted l, rget r "_abs" = vabs (rget r "STRIKE_DISTANCE") := by
    intro r hr
    rcases mem_pickSideSorted hr with ⟨r0, _, rfl⟩
    rw [rget_annAbs_ne _ hne]
    exact rget_rset_self _ _ _
  have ht' : (pickSideSorted l).Pairwise
      (fun u v => valLtB (vabs (rget (dropAbs v) "STRIKE_DISTANCE"))
        (vabs (rget (dropAbs u) "STRIKE_DISTANCE")) = false) := by
    refine List.Pairwise.imp_of_mem ?_ ht
    intro a b ha hb hab
    rw [rget_dropAbs_ne _ hne, rget_dropAbs_ne _ hne, ← hmem a ha, ← hmem b hb]
    exact hab
  exact List.pairwise_map.mpr ht'

/-- C3: each side of a processed group is stable-sorted by absolute
distance ascending — the sorted side preserves, key value by key value,
the original relative order of the rows (stability), and consecutive
output rows of one side carry non-decreasing absolute distances — the
group's output is the selected below rows followed by the selected above
rows, and the temporary `_abs` column is dropped from the output. -/

theorem C3_stable_sort_order (b : Batch) (out : Batch)
    (h : select_10_above_below b = Except.ok out)
    (h1 : ¬b.rows = [])
    (h2 : "STRIKE_DISTANCE" ∈ (compute_distances b).cols) :
    out.rows = (pickSideSorted (sideBelow (compute_distances b)) ++
                pickSideSorted (sideAbove (compute_distances b))).map dropAbs ∧
    (((sideBelow (compute_distances b)).map annAbs).map (fun r => rget r "_abs")).all
      (fun k => decide
        (((stableSortByCol "_abs" ((sideBelow (compute_distances b)).map annAbs)).filter
            fun r => rget r "_abs" == k) =
          (((sideBelow (compute_distances b)).map annAbs).filter
            fun r => rget r "_abs" == k))) = true ∧
    (((sideAbove (compute_distances b)).map annAbs).map (fun r => rget r "_abs")).all
      (fun k => decide
        (((stableSortByCol "_abs" ((sideAbove (compute_distances b)).map annAbs)).filter
            fun r => rget r "_abs" == k) =
          (((sideAbove (compute_distances b)).map annAbs).filter
            fun r => rget r "_abs" == k))) = true ∧
    ((pickSideSorted (sideBelow (compute_distances b))).map dropAbs).Pairwise
      (fun u v => valLtB (vabs (rget v "STRIKE_DISTANCE"))
        (vabs (rget u "STRIKE_DISTANCE")) = false) ∧
    ((pickSideSorted (sideAbove (compute_distances b))).map dropAbs).Pairwise
      (fun u v => valLtB (vabs (rget v "STRIKE_DISTANCE"))
        (vabs (rget u "STRIKE_DISTANCE")) = false) ∧
    "_abs" ∉ out.cols := by
  rw [select_ok_of_nonempty b h1 h2] at h
  have hout := (Except.ok.injEq _ _).mp h.symm
  refine ⟨by rw [hout], ?_, ?_, pairwise_pickSideSorted _, pairwise_pickSideSorted _, ?_⟩
  · rw [List.all_eq_true]
    intro k hk
    rw [stableSortByCol_filter_eq]
    simp
  · rw [List.all_eq_true]
    intro k hk
    rw [stableSortByCol_filter_eq]
    simp
  · rw [hout]
    intro hmem
    have := (List.mem_filter.mp hmem).2
    simp at this

/-- Witness for C3 at `tieBatch`. -/

theorem C3_witness :
    select_10_above_below tieBatch = Except.ok tieOut ∧
    ¬tieBatch.rows = [] ∧
    "STRIKE_DISTANCE" ∈ (compute_distances tieBatch).cols ∧
    (tieOut.rows = (pickSideSorted (sideBelow (compute_distances tieBatch)) ++
                pickSideSorted (sideAbove (compute_distances tieBatch))).map dropAbs ∧
    (((sideBelow (compute_distances tieBatch)).map annAbs).map (fun r => rget r "_abs")).all
      (fun k => decide
        (((stableSortByCol "_abs" ((sideBelow (compute_distances tieBatch)).map annAbs)).filter
            fun r => rget r "_abs" == k) =
          (((sideBelow (compute_distances tieBatch)).map annAbs).filter
            fun r => rget r "_abs" == k))) = true ∧
    (((sideAbove (compute_distances tieBatch)).map annAbs).map (fun r => rget r "_abs")).all
      (fun k => decide
        (((stableSortByCol "_abs" ((sideAbove (compute_distances tieBatch)).map annAbs)).filter
            fun r => rget r "_abs" == k) =
          (((sideAbove (compute_distances tieBatch)).map annAbs).filter
            fun r => rget r "_abs" == k))) = true ∧
    ((pickSideSorted (sideBelow (compute_distances tieBatch))).map dropAbs).Pairwise
      (fun u v => valLtB (vabs (rget v "STRIKE_DISTANCE"))
        (vabs (rget u "STRIKE_DISTANCE")) = false) ∧
    ((pickSideSorted (sideAbove (compute_distances tieBatch))).map dropAbs).Pairwise
      (fun u v => valLtB (vabs (rget v "STRIKE_DISTANCE"))
        (vabs (rget u "STRIKE_DISTANCE")) = false) ∧
    "_abs" ∉ tieOut.cols) :=
  ⟨by with_unfolding_all rfl, by decide, by with_unfolding_all decide,
   C3_stable_sort_order tieBatch tieOut (by with_unfolding_all rfl) (by decide)
     (by with_unfolding_all decide)⟩

/-- Witness for C5 at `zeroUnderlyingBatch` (percentage column absent,
both operand columns present). -/

theorem C5_witness :
    ("STRIKE" ∈ zeroUnderlyingBatch.cols) ∧
    ("UNDERLYING_LAST" ∈ zeroUnderlyingBatch.cols) ∧
    pctCond zeroUnderlyingBatch ∧
    (((compute_distances zeroUnderlyingBatch).rows.map fun r => rget r "STRIKE_DISTANCE_PCT") =
      zeroUnderlyingBatch.rows.map pctOf ∧
    (zeroUnderlyingBatch.rows.all fun r =>
      !(rget r "STRIKE" == Val.nan || rget r "UNDERLYING_LAST" == Val.nan) ||
        (pctOf r == Val.nan)) = true ∧
    (zeroUnderlyingBatch.rows.all fun r =>
      match rget r "STRIKE", rget r "UNDERLYING_LAST" with
      | Val.num a, Val.num u =>
          if u = 0 then
            (if a = 0 then pctOf r == Val.nan else (pctOf r == Val.pinf || pctOf r == Val.ninf))
          else true
      | _, _ => true) = true) :=
  ⟨by decide, by decide, by decide,
   C5_pct_derivation zeroUnderlyingBatch (by decide) (by decide) (by decide)⟩

/-- C8 (amended): the written column sequence is the present
`OUTPUT_ORDER` columns in their fixed order, then the present members of
the fixed secondary set, then every remaining column in its existing
order; every batch column appears at least once, and exactly once except
`C_VOLUME` and `P_VOLUME`, which are listed in both fixed lists and so
appear twice when present (the unamended "each column exactly once"
fails, see the counterexample). -/

theorem C8_output_column_order (selCols : List String) (hnd : selCols.Nodup) :
    ((output_cols selCols).all fun c => decide (c ∈ selCols)) = true ∧
    (selCols.all fun c =>
      decide ((output_cols selCols).count c =
        if c = "C_VOLUME" ∨ c = "P_VOLUME" then 2 else 1)) = true := by
  have hndO : OUTPUT_ORDER.Nodup := by decide
  have hndE : EXTRAS_ORDER.Nodup := by decide
  constructor
  · rw [List.all_eq_true]
    intro c hc
    simp only [output_cols, List.mem_append, List.mem_filter] at hc
    rcases hc with (hc | hc) | hc
    · exact hc.2
    · exact hc.2
    · simp only [decide_eq_true_eq]
      exact hc.1
  · rw [List.all_eq_true]
    intro c hc
    simp only [decide_eq_true_eq]
    have hpc : (decide (c ∈ selCols)) = true := decide_eq_true hc
    simp only [output_cols, List.count_append]
    have hcntO : (OUTPUT_ORDER.filter fun c => decide (c ∈ selCols)).count c =
        OUTPUT_ORDER.count c := List.count_filter hpc
    have hcntE : (EXTRAS_ORDER.filter fun c => decide (c ∈ selCols)).count c =
        EXTRAS_ORDER.count c := List.count_filter hpc
    by_cases hO : c ∈ OUTPUT_ORDER <;> by_cases hE : c ∈ EXTRAS_ORDER
    · -- in both fixed lists: the remaining-part predicate is false for c
      have hrem : (selCols.filter fun c => decide
          (c ∉ (OUTPUT_ORDER.filter fun c => decide (c ∈ selCols)) ++
            EXTRAS_ORDER.filter fun c => decide (c ∈ selCols))).count c = 0 := by
        rw [List.count_eq_zero]
        intro hmem
        have h2 := (List.mem_filter.mp hmem).2
        simp only [decide_eq_true_eq, List.mem_append, List.mem_filter] at h2
        exact h2 (Or.inl ⟨hO, hc⟩)
      have hboth : c ∈ OUTPUT_ORDER.filter fun x => decide (x ∈ EXTRAS_ORDER) :=
        List.mem_filter.mpr ⟨hO, decide_eq_true hE⟩
      have hpair : OUTPUT_ORDER.filter (fun x => decide (x ∈ EXTRAS_ORDER)) =
          ["C_VOLUME", "P_VOLUME"] := by decide
      rw [hpair] at hboth
      have hcv : c = "C_VOLUME" ∨ c = "P_VOLUME" := by simpa using hboth
      rw [hcntO, hcntE, hrem, if_pos hcv,
        List.count_eq_one_of_mem hndO hO, List.count_eq_one_of_mem hndE hE]
    · have hrem : (selCols.filter fun c => decide
          (c ∉ (OUTPUT_ORDER.filter fun c => decide (c ∈ selCols)) ++
            EXTRAS_ORDER.filter fun c => decide (c ∈ selCols))).count c = 0 := by
        rw [List.count_eq_zero]
        intro hmem
        have h2 := (List.mem_filter.mp hmem).2
        simp only [decide_eq_true_eq, List.mem_append, List.mem_filter] at h2
        exact h2 (Or.inl ⟨hO, hc⟩)
      have hif : ¬(c = "C_VOLUME" ∨ c = "P_VOLUME") := by
        rintro (rfl | rfl) <;> exact hE (by decide)
      rw [hcntO, hcntE, hrem, if_neg hif, List.count_eq_one_of_mem hndO hO,
        List.count_eq_zero.mpr hE]
    · have hrem : (selCols.filter fun c => decide
          (c ∉ (OUTPUT_ORDER.filter fun c => decide (c ∈ selCols)) ++
            EXTRAS_ORDER.filter fun c => decide (c ∈ selCols))).count c = 0 := by
        rw [List.count_eq_zero]
        intro hmem
        have h2 := (List.mem_filter.mp hmem).2
        simp only [decide_eq_true_eq, List.mem_append, List.mem_filter] at h2
        exact h2 (Or.inr ⟨hE, hc⟩)
      have hif : ¬(c = "C_VOLUME" ∨ c = "P_VOLUME") := by
        rintro (rfl | rfl) <;> exact hO (by decide)
      rw [hcntO, hcntE, hrem, if_neg hif, List.count_eq_zero.mpr hO,
        List.count_eq_one_of_mem hndE hE]
    · have hrem : (selCols.filter fun c => decide
          (c ∉ (OUTPUT_ORDER.filter fun c => decide (c ∈ selCols)) ++
            EXTRAS_ORDER.filter fun c => decide (c ∈ selCols))).count c =
          selCols.count c := by
        apply List.count_filter
        simp only [decide_eq_true_eq, List.mem_append, List.mem_filter]
        rintro (⟨h, _⟩ | ⟨h, _⟩)
        · exact hO h
        · exact hE h
      have hif : ¬(c = "C_VOLUME" ∨ c = "P_VOLUME") := by
        rintro (rfl | rfl) <;> exact hO (by decide)
      rw [hcntO, hcntE, hrem, if_neg hif, List.count_eq_zero.mpr hO,
        List.count_eq_zero.mpr hE, List.count_eq_one_of_mem hnd hc]

/-- Witness for C8 on the columns of `volumeChunk`'s selected batch. -/

theorem C8_witness :
    (["QUOTE_READTIME", "EXPIRE_DATE", "DTE", "UNDERLYING_LAST", "STRIKE", "C_VOLUME",
      "HHMM", "STRIKE_DISTANCE", "STRIKE_DISTANCE_PCT"] : List String).Nodup ∧
    (((output_cols ["QUOTE_READTIME", "EXPIRE_DATE", "DTE", "UNDERLYING_LAST", "STRIKE",
        "C_VOLUME", "HHMM", "STRIKE_DISTANCE", "STRIKE_DISTANCE_PCT"]).all
      fun c => decide (c ∈ (["QUOTE_READTIME", "EXPIRE_DATE", "DTE", "UNDERLYING_LAST",
        "STRIKE", "C_VOLUME", "HHMM", "STRIKE_DISTANCE", "STRIKE_DISTANCE_PCT"] :
          List String))) = true ∧
    ((["QUOTE_READTIME", "EXPIRE_DATE", "DTE", "UNDERLYING_LAST", "STRIKE", "C_VOLUME",
        "HHMM", "STRIKE_DISTANCE", "STRIKE_DISTANCE_PCT"] : List String).all fun c =>
      decide ((output_cols ["QUOTE_READTIME", "EXPIRE_DATE", "DTE", "UNDERLYING_LAST",
          "STRIKE", "C_VOLUME", "HHMM", "STRIKE_DISTANCE", "STRIKE_DISTANCE_PCT"]).count c =
        if c = "C_VOLUME" ∨ c = "P_VOLUME" then 2 else 1)) = true) :=
  ⟨by decide,
   C8_output_column_order ["QUOTE_READTIME", "EXPIRE_DATE", "DTE", "UNDERLYING_LAST",
     "STRIKE", "C_VOLUME", "HHMM", "STRIKE_DISTANCE", "STRIKE_DISTANCE_PCT"] (by decide)⟩

/-- C9: the run is a pure function of the delivered chunks and the
`usecols` SET. `usecols = list(set(sample.columns))` (line 127) is the
one run-to-run varying ingredient (Python's set iteration order is not
fixed across processes); any two orderings of the same column set
produce identical output, so running the pipeline twice on the same
input and configuration yields identical output. -/

theorem C9_run_deterministic (u1 u2 : List String) (chunks : List Batch)
    (h : u1.toFinset = u2.toFinset) :
    runFromFile u1 chunks = runFromFile u2 chunks := by
  have hm : ∀ c : String, decide (c ∈ u1) = decide (c ∈ u2) := by
    intro c
    apply decide_eq_decide.mpr
    constructor
    · intro hx
      exact List.mem_toFinset.mp (h ▸ List.mem_toFinset.mpr hx)
    · intro hx
      exact List.mem_toFinset.mp (h.symm ▸ List.mem_toFinset.mpr hx)
  have hf : (fun c : String => decide (c ∈ u1)) = fun c => decide (c ∈ u2) := funext hm
  have hp : (fun p : String × Val => decide (p.1 ∈ u1)) = fun p => decide (p.1 ∈ u2) :=
    funext fun p => hm p.1
  have hrc : restrictCols u1 = restrictCols u2 := by
    funext b
    unfold restrictCols
    rw [hf, hp]
  unfold runFromFile
  rw [hrc]

/-- Witness for C9: the two orderings of `{STRIKE, UNDERLYING_LAST}` the
run's `list(set(...))` might produce give identical output on a concrete
chunk list. -/

theorem C9_witness :
    (["STRIKE", "UNDERLYING_LAST"] : List String).toFinset =
      (["UNDERLYING_LAST", "STRIKE"] : List String).toFinset ∧
    runFromFile ["STRIKE", "UNDERLYING_LAST"] [twoSideBatch] =
      runFromFile ["UNDERLYING_LAST", "STRIKE"] [twoSideBatch] :=
  ⟨by decide,
   C9_run_deterministic ["STRIKE", "UNDERLYING_LAST"] ["UNDERLYING_LAST", "STRIKE"]
     [twoSideBatch] (by decide)⟩

theorem rget_ensureNumericRowAux (l : List (String × String))
    (hnd : (l.map Prod.fst).Nodup) (cols : List String) (r : Row) (c : String) :
    rget (l.foldl (fun r' p => if p.1 ∈ cols then rset r' p.1 (toNumeric (rget r' p.1)) else r') r) c =
      if c ∈ l.map Prod.fst ∧ c ∈ cols then toNumeric (rget r c) else rget r c := by
  induction l generalizing r with
  | nil => simp
  | cons p tl ih =>
    obtain ⟨k, t⟩ := p
    simp only [List.map_cons, List.nodup_cons] at hnd
    obtain ⟨hk, hnd'⟩ := hnd
    simp only [List.foldl_cons]
    by_cases hkc : k ∈ cols
    · rw [if_pos hkc, ih hnd']
      by_cases hck : c = k
      · subst hck
        have hcn : c ∉ tl.map Prod.fst := hk
        rw [if_neg (by tauto), rget_rset_self]
        simp [hkc, List.mem_cons]
      · rw [rget_rset_ne _ _ hck]
        by_cases hctl : c ∈ tl.map Prod.fst ∧ c ∈ cols
        · rw [if_pos hctl, if_pos ⟨List.mem_cons_of_mem _ hctl.1, hctl.2⟩]
        · rw [if_neg hctl, if_neg (by
            rintro ⟨hmem, hcc⟩
            rcases List.mem_cons.mp hmem with rfl | hmem'
            · exact hck rfl
            · exact hctl ⟨hmem', hcc⟩)]
    · rw [if_neg hkc, ih hnd']
      by_cases hctl : c ∈ tl.map Prod.fst ∧ c ∈ cols
      · rw [if_pos hctl, if_pos ⟨List.mem_cons_of_mem _ hctl.1, hctl.2⟩]
      · rw [if_neg hctl, if_neg (by
          rintro ⟨hmem, hcc⟩
          rcases List.mem_cons.mp hmem with rfl | hmem'
          · exact hkc hcc
          · exact hctl ⟨hmem', hcc⟩)]

theorem rget_ensureNumericRow (cols : List String) (r : Row) (c : String) :
    rget (ensureNumericRow cols r) c =
      if c ∈ NUMERIC.map Prod.fst ∧ c ∈ cols then toNumeric (rget r c) else rget r c :=
  rget_ensureNumericRowAux NUMERIC (by decide) cols r c

theorem rget_ensureNumericRow_qrt (cols : List String) (r : Row) :
    rget (ensureNumericRow cols r) "QUOTE_READTIME" = rget r "QUOTE_READTIME" := by
  rw [rget_ensureNumericRow]
  rw [if_neg]
  rintro ⟨hmem, _⟩
  revert hmem
  decide

theorem dteOk_toNumeric {v : Val}
    (h : (numGe v 0 && numLe v 14) = true) :
    (numGe (toNumeric v) 0 && numLe (toNumeric v) 14) = true := by
  cases v <;> simp_all [toNumeric, numGe, numLe]

theorem keptRow_ensureNumericRow (cols : List String) (r : Row) (h : keptRow r = true) :
    keptRow (ensureNumericRow cols r) = true := by
  unfold keptRow at h ⊢
  rw [Bool.and_eq_true] at h ⊢
  refine ⟨?_, ?_⟩
  · unfold classifyRow
    rw [rget_ensureNumericRow_qrt]
    exact h.1
  · rw [rget_ensureNumericRow]
    by_cases hc : "DTE" ∈ NUMERIC.map Prod.fst ∧ "DTE" ∈ cols
    · rw [if_pos hc]
      exact dteOk_toNumeric h.2
    · rw [if_neg hc]
      exact h.2

theorem keptRow_congr {r r' : Row}
    (hq : rget r' "QUOTE_READTIME" = rget r "QUOTE_READTIME")
    (hd : rget r' "DTE" = rget r "DTE") : keptRow r' = keptRow r := by
  unfold keptRow classifyRow
  rw [hq, hd]

theorem cols_stage_dte (b : Batch) : (stage_dte b).cols = b.cols := by
  unfold stage_dte
  split
  case isTrue h => simp [Batch.setCol, h]
  case isFalse h => rfl

theorem rows_stage_dte (b : Batch) (h : "DTE" ∈ b.cols) :
    (stage_dte b).rows =
      (b.rows.map fun r => rset r "DTE" (toNumeric (rget r "DTE"))).filter
        fun r => numGe (rget r "DTE") 0 && numLe (rget r "DTE") 14 := by
  unfold stage_dte
  rw [if_pos h]
  rfl

theorem rows_stage_time (b : Batch) (h : "QUOTE_READTIME" ∈ b.cols) :
    (stage_time b).rows =
      (b.rows.filter fun r => inWhitelist (classifyRow r)).map fun r =>
        rset r "HHMM" (match classifyRow r with
                       | some t => Val.text (String.mk t)
                       | none => Val.nan) := by
  unfold stage_time
  rw [if_pos h]

/-- After both filter stages, every surviving row passes the whitelist
test and the DTE bounds — "excluded before any further processing". -/

theorem preFilter_rows_kept (b0 : Batch)
    (hD : "DTE" ∈ (normHeadersB b0).cols)
    (hQ : "QUOTE_READTIME" ∈ (normHeadersB b0).cols) :
    ((preFilter b0).rows.all keptRow) = true := by
  have hQ2 : "QUOTE_READTIME" ∈ (stage_dte (normHeadersB b0)).cols := by
    rw [cols_stage_dte]
    exact hQ
  rw [List.all_eq_true]
  intro r' hr'
  unfold preFilter at hr'
  rw [rows_stage_time _ hQ2] at hr'
  rcases List.mem_map.mp hr' with ⟨r, hr, rfl⟩
  have hwl : inWhitelist (classifyRow r) = true := (List.mem_filter.mp hr).2
  have hrdte : r ∈ (stage_dte (normHeadersB b0)).rows := (List.mem_filter.mp hr).1
  rw [rows_stage_dte _ hD] at hrdte
  have hdte : (numGe (rget r "DTE") 0 && numLe (rget r "DTE") 14) = true :=
    (List.mem_filter.mp hrdte).2
  have hkept : keptRow r = true := by
    unfold keptRow
    rw [hwl, hdte, Bool.and_self]
  rw [keptRow_congr (rget_rset_ne _ _ (by decide)) (rget_rset_ne _ _ (by decide))]
  exact hkept

theorem exists_agree_setCol (b : Batch) (c0 : String) (f : Row → Val) :
    ∀ r' ∈ (b.setCol c0 f).rows, ∃ r ∈ b.rows, ∀ c, c ≠ c0 → rget r' c = rget r c := by
  intro r' hr'
  rw [rows_setCol] at hr'
  rcases List.mem_map.mp hr' with ⟨r, hr, rfl⟩
  exact ⟨r, hr, fun c hc => rget_rset_ne _ _ hc⟩

theorem exists_agree_compute (b : Batch) :
    ∀ r' ∈ (compute_distances b).rows, ∃ r ∈ b.rows,
      ∀ c, c ≠ "STRIKE_DISTANCE" → c ≠ "STRIKE_DISTANCE_PCT" → rget r' c = rget r c := by
  intro r' hr'
  unfold compute_distances at hr'
  split at hr'
  case isTrue hg =>
    dsimp only at hr'
    split at hr' <;> split at hr'
    · rcases exists_agree_setCol _ _ _ r' hr' with ⟨r1, hr1, ha1⟩
      rcases exists_agree_setCol _ _ _ r1 hr1 with ⟨r, hr, ha⟩
      exact ⟨r, hr, fun c h1 h2 => (ha1 c h2).trans (ha c h1)⟩
    · rcases exists_agree_setCol _ _ _ r' hr' with ⟨r, hr, ha⟩
      exact ⟨r, hr, fun c h1 _ => ha c h1⟩
    · rcases exists_agree_setCol _ _ _ r' hr' with ⟨r, hr, ha⟩
      exact ⟨r, hr, fun c _ h2 => ha c h2⟩
    · exact ⟨r', hr', fun c _ _ => rfl⟩
  case isFalse hg => exact ⟨r', hr', fun c _ _ => rfl⟩

theorem exists_agree_select {b sel : Batch} (h : select_10_above_below b = Except.ok sel) :
    ∀ r' ∈ sel.rows, ∃ r ∈ b.rows,
      rget r' "QUOTE_READTIME" = rget r "QUOTE_READTIME" ∧
        rget r' "DTE" = rget r "DTE" := by
  intro r' hr'
  by_cases hemp : b.rows = []
  · unfold select_10_above_below at h
    rw [if_pos hemp] at h
    have hb : b = sel := (Except.ok.injEq _ _).mp h
    rw [← hb] at hr'
    exact ⟨r', hr', rfl, rfl⟩
  · unfold select_10_above_below at h
    rw [if_neg hemp] at h
    split at h
    case neg.isTrue h2 =>
      have hsel := (Except.ok.injEq _ _).mp h
      rw [← hsel] at hr'
      simp only [List.mem_map, List.mem_append] at hr'
      rcases hr' with ⟨r1, hr1, rfl⟩
      have hr0 : ∃ r0, r0 ∈ (compute_distances b).rows ∧ r1 = annAbs r0 := by
        rcases hr1 with hr1 | hr1
        · rcases mem_pickSideSorted hr1 with ⟨r0, hr0, rfl⟩
          exact ⟨r0, (List.mem_filter.mp hr0).1, rfl⟩
        · rcases mem_pickSideSorted hr1 with ⟨r0, hr0, rfl⟩
          exact ⟨r0, (List.mem_filter.mp hr0).1, rfl⟩
      rcases hr0 with ⟨r0, hr0, rfl⟩
      rcases exists_agree_compute b r0 hr0 with ⟨r, hr, ha⟩
      refine ⟨r, hr, ?_, ?_⟩
      · rw [rget_dropAbs_ne _ (by decide), rget_annAbs_ne _ (by decide)]
        exact ha _ (by decide) (by decide)
      · rw [rget_dropAbs_ne _ (by decide), rget_annAbs_ne _ (by decide)]
        exact ha _ (by decide) (by decide)
    case neg.isFalse h2 => exact absurd h (by simp)

theorem except_bind_ok {α β : Type} {e : Except String α} {g : α → Except String β}
    {v : β} (h : e >>= g = Except.ok v) : ∃ a, e = Except.ok a ∧ g a = Except.ok v := by
  cases e with
  | error msg => simp [Bind.bind, Except.bind] at h
  | ok a => exact ⟨a, rfl, by simpa [Bind.bind, Except.bind] using h⟩

theorem except_map_ok {α β : Type} {e : Except String α} {g : α → β} {v : β}
    (h : e.map g = Except.ok v) : ∃ a, e = Except.ok a ∧ g a = v := by
  cases e with
  | error msg => simp [Except.map] at h
  | ok a =>
    refine ⟨a, rfl, ?_⟩
    simpa [Except.map] using h

theorem mapM_ok_mem {α β : Type} (f : α → Except String β) :
    ∀ (l : List α) (parts : List β), l.mapM f = Except.ok parts →
      ∀ p ∈ parts, ∃ x ∈ l, f x = Except.ok p := by
  intro l
  induction l with
  | nil =>
    intro parts h p hp
    simp only [List.mapM_nil] at h
    have : parts = [] := by simpa [Pure.pure, Except.pure] using h.symm
    subst this
    simp at hp
  | cons x xs ih =>
    intro parts h p hp
    rw [List.mapM_cons] at h
    rcases except_bind_ok h with ⟨y, hy, h2⟩
    rcases except_bind_ok h2 with ⟨ys, hys, h3⟩
    have : y :: ys = parts := by simpa [Pure.pure, Except.pure] using h3
    subst this
    rcases List.mem_cons.mp hp with rfl | hp'
    · exact ⟨x, List.mem_cons_self _ _, hy⟩
    · rcases ih ys hys p hp' with ⟨x', hx', hfx'⟩
      exact ⟨x', List.mem_cons_of_mem _ hx', hfx'⟩

theorem exists_agree_groupby {gcols : List String} {b sel : Batch}
    (h : groupby_select gcols b = Except.ok sel) :
    ∀ r' ∈ sel.rows, ∃ r ∈ b.rows,
      rget r' "QUOTE_READTIME" = rget r "QUOTE_READTIME" ∧
        rget r' "DTE" = rget r "DTE" := by
  unfold groupby_select at h
  rcases except_map_ok h with ⟨parts, hparts, hsel⟩
  intro r' hr'
  rw [← hsel] at hr'
  simp only [List.mem_flatten, List.mem_map] at hr'
  rcases hr' with ⟨rows0, ⟨part, hpart, rfl⟩, hrmem⟩
  rcases mapM_ok_mem _ _ _ hparts part hpart with ⟨k, hk, hselk⟩
  rcases exists_agree_select hselk r' hrmem with ⟨r, hr, ha⟩
  exact ⟨r, (List.mem_filter.mp hr).1, ha⟩

theorem processChunk_ok_selected {b0 : Batch} {colsOut : List String} {sel : Batch}
    (h : processChunk b0 = Except.ok (some (colsOut, sel))) :
    selectedOf b0 = Except.ok sel ∧ colsOut = output_cols sel.cols := by
  unfold processChunk at h
  by_cases hemp : (preFilter b0).rows = []
  · rw [if_pos hemp] at h
    exact absurd h (by simp)
  · rw [if_neg hemp] at h
    cases hsel : selectedOf b0 with
    | error e =>
      rw [hsel] at h
      exact absurd h (by simp)
    | ok selected =>
      rw [hsel] at h
      dsimp only at h
      by_cases hse : selected.rows = []
      · rw [if_pos hse] at h
        exact absurd h (by simp)
      · rw [if_neg hse] at h
        have h2 := (Except.ok.injEq _ _).mp h
        have h3 := (Option.some.injEq _ _).mp h2
        have hcols : output_cols selected.cols = colsOut := congrArg Prod.fst h3
        have hsel2 : selected = sel := congrArg Prod.snd h3
        subst hsel2
        exact ⟨rfl, hcols.symm⟩

/-- C6: when the schema (post header normalization) carries both `DTE`
and `QUOTE_READTIME`, every row the chunk hands to the output sink has a
whitelisted classified quote time and `0 <= DTE <= 14`; and every row
failing either test (absent or non-whitelisted classification, missing
or out-of-range DTE) is already gone from the batch entering selection. -/

theorem C6_output_filters (b0 : Batch) (colsOut : List String) (sel : Batch)
    (hD : "DTE" ∈ (normHeadersB b0).cols)
    (hQ : "QUOTE_READTIME" ∈ (normHeadersB b0).cols)
    (h : processChunk b0 = Except.ok (some (colsOut, sel))) :
    (sel.rows.all keptRow) = true ∧ ((preFilter b0).rows.all keptRow) = true := by
  have hpre := preFilter_rows_kept b0 hD hQ
  refine ⟨?_, hpre⟩
  obtain ⟨hsel, -⟩ := processChunk_ok_selected h
  have hprov : ∀ r' ∈ sel.rows, ∃ r2 ∈ (coerced b0).rows,
      rget r' "QUOTE_READTIME" = rget r2 "QUOTE_READTIME" ∧
        rget r' "DTE" = rget r2 "DTE" := by
    unfold selectedOf at hsel
    split at hsel
    · exact exists_agree_select hsel
    · exact exists_agree_groupby hsel
  rw [List.all_eq_true]
  intro r' hr'
  rcases hprov r' hr' with ⟨r2, hr2, hq2, hd2⟩
  rcases exists_agree_compute _ r2 hr2 with ⟨r3, hr3, ha3⟩
  have hr4 : ∃ r4 ∈ (preFilter b0).rows, r3 = ensureNumericRow (preFilter b0).cols r4 := by
    unfold ensure_numeric at hr3
    rcases List.mem_map.mp hr3 with ⟨r4, hr4, hr4eq⟩
    exact ⟨r4, hr4, hr4eq.symm⟩
  rcases hr4 with ⟨r4, hr4, rfl⟩
  have hkept4 : keptRow r4 = true := List.all_eq_true.mp hpre r4 hr4
  have hkept3 : keptRow (ensureNumericRow (preFilter b0).cols r4) = true :=
    keptRow_ensureNumericRow _ _ hkept4
  have hkept2 : keptRow r2 = true := by
    rw [keptRow_congr (ha3 _ (by decide) (by decide)) (ha3 _ (by decide) (by decide))]
    exact hkept3
  rw [keptRow_congr hq2 hd2]
  exact hkept2

/-- Witness for C6 at `volumeChunk`. -/

theorem C6_witness :
    "DTE" ∈ (normHeadersB volumeChunk).cols ∧
    "QUOTE_READTIME" ∈ (normHeadersB volumeChunk).cols ∧
    processChunk volumeChunk = Except.ok (some (volumeChunkCols, volumeChunkSel)) ∧
    ((volumeChunkSel.rows.all keptRow) = true ∧
      ((preFilter volumeChunk).rows.all keptRow) = true) :=
  ⟨by with_unfolding_all decide, by with_unfolding_all decide, by with_unfolding_all rfl,
   C6_output_filters volumeChunk volumeChunkCols volumeChunkSel (by with_unfolding_all decide)
     (by with_unfolding_all decide) (by with_unfolding_all rfl)⟩
